import Mathlib

/-!
# gluetun: configuration resolution

A shallow embedding of the settings and environment-source code of gluetun
(`internal/configuration/settings/httpproxy.go`,
`internal/configuration/sources/env/firewall.go`,
`internal/configuration/sources/env/system.go`) together with theorems about
merge, override, defaulting, copying, rendering, list parsing and ID parsing.

Modelling conventions.

* A Go pointer field `*T` is an `Option T`: `nil` is `none`, a non-nil pointer is
  `some v` with `v` the pointed-to value. Pointer identity is not modelled, so two
  pointer fields are equal exactly when both are nil or both point to equal values.
* `time.Duration` is an `int64` count of nanoseconds, modelled as an `Int`.
* A Go `string` is modelled as a `String`; `len` is the UTF-8 byte size and the
  byte loops of the standard library run over the characters (every test they make
  is an ASCII test, which a byte of a multi-byte character fails like the character).
* A function returning `(value, error)` returns a pair whose second component is
  `none` for the nil error. A function that can fail at run time by reading through
  a nil pointer returns an `Option`, with `none` for the failure.
* Functions of other packages are not part of the repository: the gosettings
  combinators and `strconv.Atoi` are modelled, with the platform word size as the
  parameter `Arch`; `netip.ParsePrefix`, `strconv.Quote`, `env.BoolPtr` and the
  text functions of rendering are parameters of the functions that call them, so
  that the theorems hold whatever these functions return; the examples evaluate
  them on models of the library functions. The method `getEnvWithRetro` of the
  repository is outside src/ and is modelled from the specification.
-/

namespace Gluetun

/-! ## The gosettings combinators used by the settings entities -/

/-- Modelled from the spec: `gosettings.MergeWithPointer` (package
github.com/qdm12/gosettings, outside src/), the spec's `mergeField`: returns the
receiver if present, else the other value, whether or not the other is present. -/
def MergeWithPointer {T : Type} (existing other : Option T) : Option T :=
  match existing with
  | some v => some v
  | none =>
    match other with
    | none => none
    | some w => some w

/-- Modelled from the spec: `gosettings.MergeWithString` (outside src/), the spec's
`mergeField` on strings, where the empty string is the absent value. -/
def MergeWithString (existing other : String) : String :=
  if existing ≠ "" then existing else other

/-- Modelled from the spec: `gosettings.MergeWithNumber` (outside src/), the spec's
`mergeField` on numbers, where zero is the absent value. -/
def MergeWithNumber (existing other : Int) : Int :=
  if existing ≠ 0 then existing else other

/-- Modelled from the spec: `gosettings.OverrideWithPointer` (outside src/), the
spec's `overrideField`: returns the other value if present, else the receiver. -/
def OverrideWithPointer {T : Type} (existing other : Option T) : Option T :=
  match other with
  | none => existing
  | some w => some w

/-- Modelled from the spec: `gosettings.OverrideWithString` (outside src/), the
spec's `overrideField` on strings. -/
def OverrideWithString (existing other : String) : String :=
  if other = "" then existing else other

/-- Modelled from the spec: `gosettings.OverrideWithNumber` (outside src/), the
spec's `overrideField` on numbers. -/
def OverrideWithNumber (existing other : Int) : Int :=
  if other = 0 then existing else other

/-- Modelled from the spec: `gosettings.DefaultPointer` (outside src/), the spec's
defaulting of one field: the receiver if present, else a pointer to the default. -/
def DefaultPointer {T : Type} (existing : Option T) (defaultValue : T) : Option T :=
  match existing with
  | some v => some v
  | none => some defaultValue

/-- Modelled from the spec: `gosettings.DefaultString` (outside src/). -/
def DefaultString (existing defaultValue : String) : String :=
  if existing ≠ "" then existing else defaultValue

/-- Modelled from the spec: `gosettings.DefaultNumber` (outside src/). -/
def DefaultNumber (existing defaultValue : Int) : Int :=
  if existing ≠ 0 then existing else defaultValue

/-! ## HTTP proxy settings (`settings/httpproxy.go`) -/

/-- One second as a `time.Duration` (nanoseconds). -/
def Second : Int := 1000000000

/-- The settings entity `HTTPProxy` of `settings/httpproxy.go`. -/
structure HTTPProxy where
  User : Option String
  Password : Option String
  CertFile : Option String
  KeyFile : Option String
  ListeningAddress : String
  Enabled : Option Bool
  Stealth : Option Bool
  Log : Option Bool
  ReadHeaderTimeout : Int
  ReadTimeout : Int
  deriving DecidableEq, Repr

/-- The zero value `HTTPProxy{}`: every field absent. -/
def HTTPProxy.empty : HTTPProxy :=
  { User := none, Password := none, CertFile := none, KeyFile := none,
    ListeningAddress := "", Enabled := none, Stealth := none, Log := none,
    ReadHeaderTimeout := 0, ReadTimeout := 0 }

/-- The receiver after `h.mergeWith(other)`. -/
def HTTPProxy.mergeWith (h other : HTTPProxy) : HTTPProxy :=
  { User := MergeWithPointer h.User other.User
    Password := MergeWithPointer h.Password other.Password
    CertFile := MergeWithPointer h.CertFile other.CertFile
    KeyFile := MergeWithPointer h.KeyFile other.KeyFile
    ListeningAddress := MergeWithString h.ListeningAddress other.ListeningAddress
    Enabled := MergeWithPointer h.Enabled other.Enabled
    Stealth := MergeWithPointer h.Stealth other.Stealth
    Log := MergeWithPointer h.Log other.Log
    ReadHeaderTimeout := MergeWithNumber h.ReadHeaderTimeout other.ReadHeaderTimeout
    ReadTimeout := MergeWithNumber h.ReadTimeout other.ReadTimeout }

/-- The receiver after `h.overrideWith(other)`. -/
def HTTPProxy.overrideWith (h other : HTTPProxy) : HTTPProxy :=
  { User := OverrideWithPointer h.User other.User
    Password := OverrideWithPointer h.Password other.Password
    CertFile := OverrideWithPointer h.CertFile other.CertFile
    KeyFile := OverrideWithPointer h.KeyFile other.KeyFile
    ListeningAddress := OverrideWithString h.ListeningAddress other.ListeningAddress
    Enabled := OverrideWithPointer h.Enabled other.Enabled
    Stealth := OverrideWithPointer h.Stealth other.Stealth
    Log := OverrideWithPointer h.Log other.Log
    ReadHeaderTimeout := OverrideWithNumber h.ReadHeaderTimeout other.ReadHeaderTimeout
    ReadTimeout := OverrideWithNumber h.ReadTimeout other.ReadTimeout }

/-- The receiver after `h.setDefaults()`. -/
def HTTPProxy.setDefaults (h : HTTPProxy) : HTTPProxy :=
  let defaultReadHeaderTimeout := Second
  let defaultReadTimeout := 3 * Second
  { User := DefaultPointer h.User ""
    Password := DefaultPointer h.Password ""
    CertFile := DefaultPointer h.CertFile ""
    KeyFile := DefaultPointer h.KeyFile ""
    ListeningAddress := DefaultString h.ListeningAddress ":8888"
    Enabled := DefaultPointer h.Enabled false
    Stealth := DefaultPointer h.Stealth false
    Log := DefaultPointer h.Log false
    ReadHeaderTimeout := DefaultNumber h.ReadHeaderTimeout defaultReadHeaderTimeout
    ReadTimeout := DefaultNumber h.ReadTimeout defaultReadTimeout }

/-- A Resolved entity: the internal state the field comments of `HTTPProxy`
describe, with no pointer nil, a non-empty listening address and non-zero timeouts. -/
def HTTPProxy.Resolved (h : HTTPProxy) : Prop :=
  h.User ≠ none ∧ h.Password ≠ none ∧ h.CertFile ≠ none ∧ h.KeyFile ≠ none ∧
  h.Enabled ≠ none ∧ h.Stealth ≠ none ∧ h.Log ≠ none ∧
  h.ListeningAddress ≠ "" ∧ h.ReadHeaderTimeout ≠ 0 ∧ h.ReadTimeout ≠ 0

/-- The fragment whose every field is preset to the HTTP proxy default, written
from the spec's list of defaults (the refinement side of "defaulting is a merge"). -/
def HTTPProxy.defaultsFragment : HTTPProxy :=
  { User := some "", Password := some "", CertFile := some "", KeyFile := some "",
    ListeningAddress := ":8888", Enabled := some false, Stealth := some false,
    Log := some false, ReadHeaderTimeout := 1000000000, ReadTimeout := 3000000000 }

/-! ## Error values -/

/-- The sentinel errors that `sources/env/firewall.go` and `sources/env/system.go`
create with `errors.New`. -/
inductive Sentinel where
  | ErrPortParsing
  | ErrPortValue
  | ErrSystemPUIDNotValid
  | ErrSystemPGIDNotValid
  | ErrSystemTimezoneNotValid
  | ErrSystemIDNotValid
  deriving DecidableEq, Repr

/-- The text of a sentinel error. -/
def Sentinel.Error : Sentinel → String
  | .ErrPortParsing => "cannot parse port"
  | .ErrPortValue => "port value is not valid"
  | .ErrSystemPUIDNotValid => "PUID is not valid"
  | .ErrSystemPGIDNotValid => "PGID is not valid"
  | .ErrSystemTimezoneNotValid => "timezone is not valid"
  | .ErrSystemIDNotValid => "system ID is not valid"

/-- The causes a `strconv.NumError` carries: `strconv.ErrSyntax`, `strconv.ErrRange`
and the error of an invalid bit size. -/
inductive StrconvErr where
  | ErrSyntax
  | ErrRange
  | bitSize (n : Nat)
  deriving DecidableEq, Repr

/-- The text of a strconv cause. -/
def StrconvErr.Error : StrconvErr → String
  | .ErrSyntax => "invalid syntax"
  | .ErrRange => "value out of range"
  | .bitSize n => "invalid bit size " ++ toString n

/-- The record `strconv.NumError`: failing function, input and cause. -/
structure NumError where
  Func : String
  Num : String
  Err : StrconvErr
  deriving DecidableEq, Repr

/-- The method `(*NumError).Error`; `Quote` is `strconv.Quote`, taken as a parameter. -/
def NumError.Error (Quote : String → String) (e : NumError) : String :=
  "strconv." ++ e.Func ++ ": parsing " ++ Quote e.Num ++ ": " ++ e.Err.Error

/-- A Go `error` value: a sentinel, a `*strconv.NumError`, an error made by a library
that is a parameter of the model (known by its text only), or the value built by
`fmt.Errorf` with one `%w` verb, which holds the formatted text and the wrapped error. -/
inductive GoError where
  | errorString (e : Sentinel)
  | numError (e : NumError)
  | foreign (text : String)
  | wrapError (msg : String) (err : GoError)
  deriving DecidableEq, Repr

/-- The method `Error()` of an error value. -/
def GoError.Error (Quote : String → String) : GoError → String
  | .errorString e => e.Error
  | .numError e => e.Error Quote
  | .foreign text => text
  | .wrapError msg _ => msg

/-- The test `errors.Is(err, target)` for a sentinel target: walks the `%w` chain. -/
def GoError.Is : GoError → Sentinel → Bool
  | .errorString e, target => e = target
  | .numError _, _ => false
  | .foreign _, _ => false
  | .wrapError _ err, target => err.Is target

/-! ## The Go standard library functions `strconv.ParseUint`, `ParseInt`, `Atoi` -/

/-- The platform word size, which fixes `strconv.IntSize` and the width of `int`. -/
inductive Arch where
  | bits32
  | bits64
  deriving DecidableEq, Repr

/-- The constant `strconv.IntSize`. -/
def Arch.IntSize : Arch → Nat
  | .bits32 => 32
  | .bits64 => 64

/-- The conversion of an integer to a signed machine integer of `bits` bits
(two's complement wrap-around). -/
def wrapSigned (bits : Nat) (x : Int) : Int :=
  (x + 2 ^ (bits - 1)) % 2 ^ bits - 2 ^ (bits - 1)

/-- The conversion to the platform `int`. -/
def Arch.toInt (arch : Arch) (x : Int) : Int := wrapSigned arch.IntSize x

/-- The constant `maxUint64` of strconv. -/
def maxUint64 : Nat := 2 ^ 64 - 1

/-- The helper `syntaxError(fn, str)` of strconv. -/
def syntaxError (fn str : String) : NumError := { Func := fn, Num := str, Err := .ErrSyntax }

/-- The helper `rangeError(fn, str)` of strconv. -/
def rangeError (fn str : String) : NumError := { Func := fn, Num := str, Err := .ErrRange }

/-- The helper `bitSizeError(fn, str, bitSize)` of strconv. -/
def bitSizeError (fn str : String) (bitSize : Nat) : NumError :=
  { Func := fn, Num := str, Err := .bitSize bitSize }

/-- The helper `lower(c)` of strconv: `c | ('x' - 'X')`. -/
def lower (c : Nat) : Nat := c ||| 32

/-- The digit value that the loop of `ParseUint` gives a byte: a decimal digit, a
letter (valued from 10), or no digit at all. -/
def digitValue (c : Char) : Option Nat :=
  if 48 ≤ c.toNat ∧ c.toNat ≤ 57 then some (c.toNat - 48)
  else if 97 ≤ lower c.toNat ∧ lower c.toNat ≤ 122 then some (lower c.toNat - 97 + 10)
  else none

/-- The loop of `strconv.ParseUint` over the bytes still to read, with the running
value `n` (a `uint64`); it returns the value and the error of `ParseUint`. -/
def ParseUint.loop (s0 : String) (base cutoff maxVal : Nat) :
    List Char → Nat → Nat × Option NumError
  | [], n => (n, none)
  | c :: cs, n =>
    match digitValue c with
    | none => (0, some (syntaxError "ParseUint" s0))
    | some d =>
      if d ≥ base then (0, some (syntaxError "ParseUint" s0))
      else if n ≥ cutoff then (maxVal, some (rangeError "ParseUint" s0))
      else
        let n10 := (n * base) % 2 ^ 64
        let n1 := (n10 + d) % 2 ^ 64
        if n1 < n10 ∨ n1 > maxVal then (maxVal, some (rangeError "ParseUint" s0))
        else ParseUint.loop s0 base cutoff maxVal cs n1

/-- Modelled from the spec: `strconv.ParseUint(s, 10, bitSize)` of the Go standard
library (outside src/), the spec's "parsed as base-10 unsigned", following the
library: an empty input is a syntax error, bit size 0 means `IntSize`, each byte must
be a digit below the base, and a value above `1<<bitSize - 1` is a range error that
returns that maximum. The base is 10 at every call, so the base-0 prefix and
underscore handling are not reachable and left out. -/
def ParseUint (arch : Arch) (s : String) (bitSize : Nat) : Nat × Option NumError :=
  if s = "" then (0, some (syntaxError "ParseUint" s))
  else
    let base := 10
    let bitSize := if bitSize = 0 then arch.IntSize else bitSize
    if bitSize > 64 then (0, some (bitSizeError "ParseUint" s bitSize))
    else
      let cutoff := maxUint64 / 10 + 1
      let maxVal := (2 ^ bitSize % 2 ^ 64 + 2 ^ 64 - 1) % 2 ^ 64
      ParseUint.loop s base cutoff maxVal s.data 0

/-- The step "pick off leading sign" of `ParseInt`: whether the sign is `-`, and
the text after the sign. -/
def ParseInt.pickSign (s : String) : Bool × String :=
  match s.data with
  | '+' :: rest => (false, String.mk rest)
  | '-' :: rest => (true, String.mk rest)
  | _ => (false, s)

/-- The end of `ParseInt`, after the call of `ParseUint` did not fail on syntax: the
magnitude `un` is checked against `1 << (bitSize-1)` and converted to `int64`. -/
def ParseInt.finish (arch : Arch) (s0 : String) (bitSize : Nat) (neg : Bool) (un : Nat) :
    Int × Option NumError :=
  let bitSize := if bitSize = 0 then arch.IntSize else bitSize
  let cutoff := 2 ^ (bitSize - 1) % 2 ^ 64
  if !neg ∧ un ≥ cutoff then ((cutoff : Int) - 1, some (rangeError "ParseInt" s0))
  else if neg ∧ un > cutoff then (-(cutoff : Int), some (rangeError "ParseInt" s0))
  else
    let n := wrapSigned 64 un
    (if neg then wrapSigned 64 (-n) else n, none)

/-- Modelled from the spec: `strconv.ParseInt(s, 10, bitSize)` of the Go standard
library (outside src/), the spec's "parse as a base-10 integer", following the
library: a leading sign is picked off, the rest goes through `ParseUint`, an error
other than a range error is returned under the name `ParseInt`, and the magnitude is
checked against `1 << (bitSize-1)`. -/
def ParseInt (arch : Arch) (s : String) (bitSize : Nat) : Int × Option NumError :=
  if s = "" then (0, some (syntaxError "ParseInt" s))
  else
    let s0 := s
    let signed := ParseInt.pickSign s
    let neg := signed.1
    let r := ParseUint arch signed.2 bitSize
    let un := r.1
    match r.2 with
    | some err =>
      if err.Err ≠ .ErrRange then (0, some { err with Func := "ParseInt", Num := s0 })
      else ParseInt.finish arch s0 bitSize neg un
    | none => ParseInt.finish arch s0 bitSize neg un

/-- The loop of the fast path of `strconv.Atoi`: `ch -= '0'; if ch > 9` on a byte is
the test that the byte is no decimal digit; `n` is an `int`. -/
def Atoi.fastLoop (arch : Arch) : List Char → Int → Option Int
  | [], n => some n
  | ch :: cs, n =>
    if ch.toNat < 48 ∨ ch.toNat - 48 > 9 then none
    else Atoi.fastLoop arch cs (arch.toInt (n * 10 + ((ch.toNat - 48 : Nat) : Int)))

/-- The start of the fast path of `Atoi`: whether the first byte is a sign `-` or
`+`, and the text after it (`s = s[1:]`). -/
def Atoi.stripSign (s : String) : Bool × List Char :=
  match s.data with
  | '-' :: rest => (true, rest)
  | '+' :: rest => (true, rest)
  | cs => (false, cs)

/-- Modelled from the spec: `strconv.Atoi` of the Go standard library (outside src/),
the spec's "parse as a base-10 integer", following the library: inputs short enough
to fit `int` take a fast path (optional sign, then digits), the others go through
`ParseInt(s, 10, 0)` and the error, if any, is renamed to `Atoi`. -/
def Atoi (arch : Arch) (s : String) : Int × Option NumError :=
  let sLen := s.utf8ByteSize
  if (arch.IntSize = 32 ∧ (0 < sLen ∧ sLen < 10)) ∨
      (arch.IntSize = 64 ∧ (0 < sLen ∧ sLen < 19)) then
    let s0 := s
    let signed := Atoi.stripSign s
    if signed.1 ∧ signed.2.length < 1 then (0, some (syntaxError "Atoi" s0))
    else
      match Atoi.fastLoop arch signed.2 0 with
      | none => (0, some (syntaxError "Atoi" s0))
      | some n =>
        (if s0.data.head? = some '-' then arch.toInt (-n) else n, none)
  else
    let r := ParseInt arch s 0
    (arch.toInt r.1, r.2.map fun nerr => { nerr with Func := "Atoi" })

/-! ## The firewall source (`sources/env/firewall.go`) -/

/-- The conversion `uint16(port)` of an `int`. -/
def uint16 (x : Int) : Nat := (x % 65536).toNat

/-- The loop `for i, s := range ss` of `stringsToPorts`: the entries still to read,
the index `i` and the slice `ports` made before the loop. -/
def stringsToPorts.loop (arch : Arch) (Quote : String → String) :
    List String → Nat → List Nat → List Nat × Option GoError
  | [], _, ports => (ports, none)
  | s :: rest, i, ports =>
    let r := Atoi arch s
    match r.2 with
    | some err =>
      ([], some (.wrapError
        (Sentinel.ErrPortParsing.Error ++ ": " ++ s ++ ": " ++ err.Error Quote)
        (.errorString .ErrPortParsing)))
    | none =>
      let port := r.1
      if port < 1 ∨ port > 65535 then
        ([], some (.wrapError
          (Sentinel.ErrPortValue.Error ++ ": must be between 1 and 65535: " ++ toString port)
          (.errorString .ErrPortValue)))
      else stringsToPorts.loop arch Quote rest (i + 1) (ports.set i (uint16 port))

/-- The function `stringsToPorts` of `firewall.go`; a nil slice is the empty list. -/
def stringsToPorts (arch : Arch) (Quote : String → String) (ss : List String) :
    List Nat × Option GoError :=
  if ss.length = 0 then ([], none)
  else
    let ports := List.replicate ss.length 0
    stringsToPorts.loop arch Quote ss 0 ports

/-- The loop `for i, s := range ss` of `stringsToNetipPrefixes`; `ParsePrefix` is
`netip.ParsePrefix` of the Go standard library, taken as a parameter. -/
def stringsToNetipPrefixes.loop {Prefix : Type} (ParsePrefix : String → Prefix × Option GoError)
    (Quote : String → String) :
    List String → Nat → List Prefix → List Prefix × Option GoError
  | [], _, ipPrefixes => (ipPrefixes, none)
  | s :: rest, i, ipPrefixes =>
    let r := ParsePrefix s
    let ipPrefixes := ipPrefixes.set i r.1
    match r.2 with
    | some err =>
      ([], some (.wrapError
        ("parsing IP network " ++ Quote s ++ ": " ++ err.Error Quote) err))
    | none => stringsToNetipPrefixes.loop ParsePrefix Quote rest (i + 1) ipPrefixes

/-- The function `stringsToNetipPrefixes` of `firewall.go`; `zero` is the zero value
`netip.Prefix{}` that `make` fills the slice with. -/
def stringsToNetipPrefixes {Prefix : Type} (zero : Prefix)
    (ParsePrefix : String → Prefix × Option GoError) (Quote : String → String)
    (ss : List String) : List Prefix × Option GoError :=
  if ss.length = 0 then ([], none)
  else
    let ipPrefixes := List.replicate ss.length zero
    stringsToNetipPrefixes.loop ParsePrefix Quote ss 0 ipPrefixes

/-! ## The claims' side: base-10 integer literals and port literals -/

/-- The test that a character is one of the decimal digits `0` to `9`. -/
def isDecDigit (c : Char) : Bool := decide (48 ≤ c.toNat ∧ c.toNat ≤ 57)

/-- The number read by continuing the value `n` with a run of decimal digits. -/
def digitsAcc (n : Nat) (cs : List Char) : Nat :=
  cs.foldl (fun n c => n * 10 + (c.toNat - 48)) n

/-- The claims' "base-10 integer literal", written from the spec's words and not from
the code: an optional sign `+` or `-` followed by one or more decimal digits, with its
value as an unbounded integer; `none` when the text is no such literal. -/
def decimalInteger (s : String) : Option Int :=
  match s.data with
  | '+' :: ds => if ds ≠ [] ∧ ds.all isDecDigit then some (digitsAcc 0 ds : Int) else none
  | '-' :: ds => if ds ≠ [] ∧ ds.all isDecDigit then some (-(digitsAcc 0 ds : Int)) else none
  | ds => if ds ≠ [] ∧ ds.all isDecDigit then some (digitsAcc 0 ds : Int) else none

/-- The claims' valid port entry: a base-10 integer literal with value in [1, 65535]. -/
def isPortLiteral (s : String) : Bool :=
  match decimalInteger s with
  | some n => decide (1 ≤ n ∧ n ≤ 65535)
  | none => false

/-- The first invalid entry of a port list, in list order. -/
def firstInvalidPort (ss : List String) : Option String :=
  ss.find? fun s => !isPortLiteral s

/-- The range of the platform `int`. -/
def Arch.fitsInt (arch : Arch) (n : Int) : Prop :=
  -(2 ^ (arch.IntSize - 1) : Int) ≤ n ∧ n < 2 ^ (arch.IntSize - 1)

/-- An instance of the `Quote` parameter for the examples: on a text of printable
ASCII characters other than the double quote and the backslash, `strconv.Quote` puts
the text between double quotes. -/
def quotePlain (s : String) : String := "\"" ++ s ++ "\""

/-- An IPv4 network prefix `a.b.c.d/bits`, the values of the example parser. -/
structure IPv4Prefix where
  octets : List Nat
  bits : Nat
  deriving DecidableEq, Repr

/-- The value of a non-empty run of decimal digits, `none` for any other text. -/
def readDecimal (cs : List Char) : Option Nat :=
  if cs ≠ [] ∧ cs.all isDecDigit = true then some (digitsAcc 0 cs) else none

/-- The value of a run of decimal digits written without leading zero (`0` itself
apart), `none` for any other text. -/
def readCanonical (cs : List Char) : Option Nat :=
  if cs = ['0'] ∨ cs.head? ≠ some '0' then readDecimal cs else none

/-- An instance of the `ParsePrefix` parameter for the examples, standing in for
`netip.ParsePrefix` on dotted-quad IPv4 prefixes only: it accepts `a.b.c.d/n` with
four octets of at most 255 and `n` of at most 32, each written without leading zero,
and rejects every other text, IPv6 prefixes included, with an error known by a text
of its own. -/
def parsePrefixIPv4 (s : String) : IPv4Prefix × Option GoError :=
  let failed : IPv4Prefix × Option GoError :=
    ({ octets := [], bits := 0 },
      some (.foreign ("netip.ParsePrefix(" ++ quotePlain s ++ "): not an IPv4 prefix")))
  match s.data.splitOn '/' with
  | [ip, bits] =>
    match (ip.splitOn '.').map readCanonical, readCanonical bits with
    | [some a, some b, some c, some d], some n =>
      if a ≤ 255 ∧ b ≤ 255 ∧ c ≤ 255 ∧ d ≤ 255 ∧ n ≤ 32 then
        ({ octets := [a, b, c, d], bits := n }, none)
      else failed
    | _, _ => failed
  | _ => failed

/-! ## Copy and rendering of the HTTP proxy settings (`settings/httpproxy.go`) -/

/-- Modelled from the spec: `gosettings.CopyPointer` (package
github.com/qdm12/gosettings, outside src/), the spec's deep copy of one optional
field: nil for nil, else a pointer to a copy of the pointed-to value. -/
def CopyPointer {T : Type} (original : Option T) : Option T :=
  match original with
  | none => none
  | some v => some v

/-- The call `h.copy()`: the receiver after the call, which the method never assigns
to, and the returned copy. -/
def HTTPProxy.copy (h : HTTPProxy) : HTTPProxy × HTTPProxy :=
  (h,
    { User := CopyPointer h.User
      Password := CopyPointer h.Password
      CertFile := CopyPointer h.CertFile
      KeyFile := CopyPointer h.KeyFile
      ListeningAddress := h.ListeningAddress
      Enabled := CopyPointer h.Enabled
      Stealth := CopyPointer h.Stealth
      Log := CopyPointer h.Log
      ReadHeaderTimeout := h.ReadHeaderTimeout
      ReadTimeout := h.ReadTimeout })

/-- A node of the tree of lines, `gotree.Node`: a text and child nodes. -/
inductive Node where
  | mk (value : String) (children : List Node)

/-- The text of a node. -/
def Node.value : Node → String
  | .mk value _ => value

/-- The child nodes of a node. -/
def Node.children : Node → List Node
  | .mk _ children => children

/-- The constructor `gotree.New` applied to an already formatted text. -/
def Node.New (value : String) : Node := .mk value []

/-- The method `node.Appendf` applied to an already formatted text: one more child,
a leaf, after the children the node has. -/
def Node.Appendf (node : Node) (line : String) : Node :=
  .mk node.value (node.children ++ [.mk line []])

/-- The texts of the child lines of a node, in order. -/
def Node.lines (node : Node) : List String := node.children.map Node.value

/-- The functions of other packages that rendering calls, taken as parameters:
`gosettings.BoolToYesNo` on a flag pointer (nil included), `gosettings.ObfuscateKey`,
the method `String` of `time.Duration` (what `%s` prints for a duration) and the
method `String` of `gotree.Node`. -/
structure RenderLib where
  BoolToYesNo : Option Bool → String
  ObfuscateKey : String → String
  DurationString : Int → String
  NodeString : Node → String

/-- The method `toLinesNode`; `none` is the run-time failure of reading through a nil
pointer (`*h.Enabled`, `*h.User`, `*h.Password`, `*h.CertFile`, `*h.KeyFile`); the
pointers `h.Enabled`, `h.Stealth` and `h.Log` are passed to `BoolToYesNo` as they
are. -/
def HTTPProxy.toLinesNode (lib : RenderLib) (h : HTTPProxy) : Option Node := do
  let node := Node.New "HTTP proxy settings:"
  let node := node.Appendf ("Enabled: " ++ lib.BoolToYesNo h.Enabled)
  if !(← h.Enabled) then
    return node
  let node := node.Appendf ("Listening address: " ++ h.ListeningAddress)
  let node := node.Appendf ("User: " ++ (← h.User))
  let node := node.Appendf ("Password: " ++ lib.ObfuscateKey (← h.Password))
  let node := node.Appendf ("CertFile: " ++ (← h.CertFile))
  let node := node.Appendf ("KeyFile: " ++ (← h.KeyFile))
  let node := node.Appendf ("Stealth mode: " ++ lib.BoolToYesNo h.Stealth)
  let node := node.Appendf ("Log: " ++ lib.BoolToYesNo h.Log)
  let node := node.Appendf ("Read header timeout: " ++ lib.DurationString h.ReadHeaderTimeout)
  let node := node.Appendf ("Read timeout: " ++ lib.DurationString h.ReadTimeout)
  return node

/-- The method `String` of `HTTPProxy`, `h.toLinesNode().String()`; it is named
`GoString` here because the name `String` is the type of texts. -/
def HTTPProxy.GoString (lib : RenderLib) (h : HTTPProxy) : Option String :=
  (h.toLinesNode lib).map lib.NodeString

/-- The child line of the tree that renders the password: the fourth child, after the
lines of the enabled flag, the listening address and the user. -/
def HTTPProxy.passwordLine (lib : RenderLib) (h : HTTPProxy) : Option String :=
  (h.toLinesNode lib).bind fun node => node.lines[3]?

/-! ## The library functions of rendering, for the examples -/

/-- Modelled from the spec: `gosettings.BoolToYesNo` (outside src/), the text of the
spec's enabled/disabled state line, following the library: `yes` for true, `no` for
false and the empty text for a nil pointer. -/
def BoolToYesNo (b : Option Bool) : String :=
  match b with
  | none => ""
  | some true => "yes"
  | some false => "no"

/-- Modelled from the spec: `gosettings.ObfuscateKey` (outside src/), the spec's
redaction function, following the library, which keeps more of a long key than the
spec's fixed placeholder: the empty key gives `[not set]`; a key gives its first and
last characters, three, two or one at each end, around `...`, for the largest such
number that leaves at least 128 bits of security hidden, each distinct character of
the key counting as a symbol of the alphabet; any other key gives `[set]`. The
library's test `hidden * log2(alphabet) >= 128` is written in whole numbers as
`2^128 <= alphabet^hidden`. -/
def ObfuscateKey (key : String) : String :=
  if key = "" then "[not set]"
  else
    let alphabetSize := key.data.eraseDups.length
    let shown := [3, 2, 1].find? fun endLength =>
      decide (2 * endLength ≤ key.length ∧
        2 ^ 128 ≤ alphabetSize ^ (key.length - 2 * endLength))
    match shown with
    | some endLength =>
      String.mk (key.data.take endLength) ++ "..." ++
        String.mk (key.data.drop (key.length - endLength))
    | none => "[set]"

/-- The loop of `fmtFrac` of package time: the digits of the fraction, from the last
one, trailing zeros left out. -/
def fmtFrac.loop : Nat → Nat → Bool → List Char → List Char × Nat × Bool
  | 0, v, print, buf => (buf, v, print)
  | i + 1, v, print, buf =>
    let digit := v % 10
    let print := print || digit != 0
    let buf := if print then Char.ofNat (digit + 48) :: buf else buf
    fmtFrac.loop i (v / 10) print buf

/-- The helper `fmtFrac` of package time: it writes the fraction of `v / 10^prec` in
front of `buf`, without trailing zeros and without the point when the fraction is 0,
and returns `v / 10^prec`. -/
def fmtFrac (buf : List Char) (v prec : Nat) : List Char × Nat :=
  let r := fmtFrac.loop prec v false buf
  (if r.2.2 then '.' :: r.1 else r.1, r.2.1)

/-- The helper `fmtInt` of package time: it writes `v` in decimal in front of `buf`. -/
def fmtInt (buf : List Char) (v : Nat) : List Char := (toString v).data ++ buf

/-- Modelled from the spec: the method `String` of `time.Duration` (Go standard
library, outside src/), the text of the spec's duration fields, following the
library: below one second the units `ns`, `µs` and `ms` with a fraction, from one
second on hours, minutes and seconds as in `1h2m3.5s`, and `0s` for zero. -/
def DurationString (d : Int) : String :=
  let u := d.natAbs
  let neg := decide (d < 0)
  let buf : List Char :=
    if u < 1000000000 then
      if u = 0 then ['0', 's']
      else
        let unit : List Char × Nat :=
          if u < 1000 then (['n', 's'], 0)
          else if u < 1000000 then (['µ', 's'], 3)
          else (['m', 's'], 6)
        let r := fmtFrac unit.1 u unit.2
        fmtInt r.1 r.2
    else
      let r := fmtFrac ['s'] u 9
      let u := r.2
      let buf := fmtInt r.1 (u % 60)
      let u := u / 60
      if u > 0 then
        let buf := fmtInt ('m' :: buf) (u % 60)
        let u := u / 60
        if u > 0 then fmtInt ('h' :: buf) u else buf
      else buf
  String.mk (if neg then '-' :: buf else buf)

mutual
/-- Modelled from the spec: the method `ToLines` of `gotree.Node` (package
github.com/qdm12/gotree, outside src/), the spec's "rooted tree" of lines, following
the library: the text of the node, then the lines of each child behind a branch
mark. -/
def Node.ToLines : Node → List String
  | .mk value children => value :: Node.ToLinesOfChildren children
/-- The lines of the children of a node: the first line of a child behind `├── `, or
`└── ` for the last child, and its other lines behind `|   `, or blanks for the last
child. -/
def Node.ToLinesOfChildren : List Node → List String
  | [] => []
  | child :: rest =>
    let isLast := rest.isEmpty
    (match child.ToLines with
      | [] => []
      | first :: more =>
        ((if isLast then "└── " else "├── ") ++ first) ::
          more.map fun line => (if isLast then "    " else "|   ") ++ line) ++
      Node.ToLinesOfChildren rest
end

/-- Modelled from the spec: the method `String` of `gotree.Node` (outside src/),
following the library: the lines of the tree joined by line feeds. -/
def NodeString (node : Node) : String := "\n".intercalate node.ToLines

/-- The instance of the rendering parameters that the examples use: the four library
functions as modelled above. -/
def exampleRenderLib : RenderLib where
  BoolToYesNo := BoolToYesNo
  ObfuscateKey := ObfuscateKey
  DurationString := DurationString
  NodeString := NodeString

/-- A password of 64 characters, 16 of them distinct, for the examples. -/
def longPassword : String :=
  "0123456789abcdef0123456789abcdef0123456789abcdef0123456789abcdef"

/-- A second password of 64 characters, 16 of them distinct, for the examples. -/
def otherLongPassword : String :=
  "fedcba9876543210fedcba9876543210fedcba9876543210fedcba9876543210"

/-- A Resolved entity for the examples: the defaults with the proxy enabled, the user
`u` and the password `P`. -/
def exampleProxy : HTTPProxy :=
  { User := some "u", Password := some "P", CertFile := some "", KeyFile := some "",
    ListeningAddress := ":8888", Enabled := some true, Stealth := some false,
    Log := some false, ReadHeaderTimeout := 1000000000, ReadTimeout := 3000000000 }

/-! ## The environment source: IDs and the firewall (`sources/env/system.go`,
`sources/env/firewall.go`) -/

/-- The surroundings of the receiver `Source`: the platform, the process environment
as `env.Get` of gosettings reads it (`none` for an unset variable), and the library
functions that the readers call, taken as parameters: `strconv.Quote`,
`netip.ParsePrefix` with the zero value of `netip.Prefix`, and `env.BoolPtr`. -/
structure Source (Prefix : Type) where
  arch : Arch
  Get : String → Option String
  Quote : String → String
  ParsePrefix : String → Prefix × Option GoError
  zeroPrefix : Prefix
  BoolPtr : String → Option Bool × Option GoError

/-- Modelled from the spec: the method `getEnvWithRetro` of `Source` (package
`sources/env` of this repository, outside src/): "if the canonical key is unset, the
retro key is tried, and the key name actually used is propagated"; it returns the key
used and the value read, and the canonical key with no value when no key is set. -/
def Source.getEnvWithRetro {Prefix : Type} (s : Source Prefix) (currentKey : String)
    (retroKeys : List String) : String × Option String :=
  match s.Get currentKey with
  | some value => (currentKey, some value)
  | none =>
    match retroKeys.find? fun retroKey => (s.Get retroKey).isSome with
    | some retroKey => (retroKey, s.Get retroKey)
    | none => (currentKey, none)

/-- Modelled from the spec: `env.CSV` of gosettings (outside src/), the spec's
"reading comma-separated lists": the value of the variable cut at the commas, and no
entry for an unset variable. -/
def Source.CSV {Prefix : Type} (s : Source Prefix) (envKey : String) : List String :=
  match s.Get envKey with
  | none => []
  | some csv => (csv.data.splitOn ',').map String.mk

/-- The conversion `uint32(idUint64)`. -/
def uint32 (x : Nat) : Nat := x % 4294967296

/-- The method `readID` of `system.go`: the ID, `none` for nil, and the error. -/
def Source.readID {Prefix : Type} (s : Source Prefix) (key retroKey : String) :
    Option Nat × Option GoError :=
  let lookup := s.getEnvWithRetro key [retroKey]
  let idEnvKey := lookup.1
  match lookup.2 with
  | none => (none, none)
  | some idString =>
    let bitSize := 64
    let max := 4294967295
    let r := ParseUint s.arch idString bitSize
    let idUint64 := r.1
    match r.2 with
    | some err =>
      (none, some (.wrapError
        ("environment variable " ++ idEnvKey ++ ": " ++ Sentinel.ErrSystemIDNotValid.Error ++
          ": " ++ err.Error s.Quote)
        (.errorString .ErrSystemIDNotValid)))
    | none =>
      if idUint64 > max then
        (none, some (.wrapError
          ("environment variable " ++ idEnvKey ++ ": " ++ Sentinel.ErrSystemIDNotValid.Error ++
            ": " ++ toString idUint64 ++ ": must be between 0 and " ++ toString max)
          (.errorString .ErrSystemIDNotValid)))
      else (some (uint32 idUint64), none)

/-- The settings entity `settings.Firewall` (declared outside src/), with the fields
that `readFirewall` assigns. -/
structure Firewall (Prefix : Type) where
  VPNInputPorts : List Nat
  InputPorts : List Nat
  OutboundSubnets : List Prefix
  Enabled : Option Bool
  Debug : Option Bool

/-- The method `readFirewall` of `firewall.go`: the entity as far as it was filled,
and the error. -/
def Source.readFirewall {Prefix : Type} (s : Source Prefix) :
    Firewall Prefix × Option GoError :=
  let firewall : Firewall Prefix :=
    { VPNInputPorts := [], InputPorts := [], OutboundSubnets := [], Enabled := none,
      Debug := none }
  let vpnInputPortStrings := s.CSV "FIREWALL_VPN_INPUT_PORTS"
  let r1 := stringsToPorts s.arch s.Quote vpnInputPortStrings
  let firewall := { firewall with VPNInputPorts := r1.1 }
  match r1.2 with
  | some err =>
    (firewall, some (.wrapError
      ("environment variable FIREWALL_VPN_INPUT_PORTS: " ++ err.Error s.Quote) err))
  | none =>
    let inputPortStrings := s.CSV "FIREWALL_INPUT_PORTS"
    let r2 := stringsToPorts s.arch s.Quote inputPortStrings
    let firewall := { firewall with InputPorts := r2.1 }
    match r2.2 with
    | some err =>
      (firewall, some (.wrapError
        ("environment variable FIREWALL_INPUT_PORTS: " ++ err.Error s.Quote) err))
    | none =>
      let outboundSubnetsKey :=
        (s.getEnvWithRetro "FIREWALL_OUTBOUND_SUBNETS" ["EXTRA_SUBNETS"]).1
      let outboundSubnetStrings := s.CSV outboundSubnetsKey
      let r3 := stringsToNetipPrefixes s.zeroPrefix s.ParsePrefix s.Quote outboundSubnetStrings
      let firewall := { firewall with OutboundSubnets := r3.1 }
      match r3.2 with
      | some err =>
        (firewall, some (.wrapError
          ("environment variable " ++ outboundSubnetsKey ++ ": " ++ err.Error s.Quote) err))
      | none =>
        let r4 := s.BoolPtr "FIREWALL"
        let firewall := { firewall with Enabled := r4.1 }
        match r4.2 with
        | some err => (firewall, some err)
        | none =>
          let r5 := s.BoolPtr "FIREWALL_DEBUG"
          let firewall := { firewall with Debug := r5.1 }
          match r5.2 with
          | some err => (firewall, some err)
          | none => (firewall, none)

/-- The claims' "base-10 unsigned integer literal", written from the spec's words and
not from the code: one or more decimal digits, with its value as an unbounded
number; `none` when the text is no such literal. -/
def decimalUnsigned (s : String) : Option Nat := readDecimal s.data

/-- An environment for the examples, as `env.Get` reads it: the variables of the list
are set to their values and every other variable is unset. -/
def exampleGet (vars : List (String × String)) (key : String) : Option String :=
  (vars.find? fun kv => kv.1 = key).map fun kv => kv.2

/-- An instance of the surroundings for the examples: a 64-bit platform, the given
variables, plain quoting, the IPv4 prefix parser, and every flag variable unset. -/
def exampleSource (vars : List (String × String)) : Source IPv4Prefix where
  arch := .bits64
  Get := exampleGet vars
  Quote := quotePlain
  ParsePrefix := parsePrefixIPv4
  zeroPrefix := { octets := [], bits := 0 }
  BoolPtr := fun _ => (none, none)

/-! ## Field-level facts about the combinators -/

theorem MergeWithPointer_some {T : Type} (v : T) (other : Option T) :
    MergeWithPointer (some v) other = some v := rfl

theorem MergeWithPointer_none {T : Type} (other : Option T) :
    MergeWithPointer none other = other := by
  cases other <;> rfl

theorem MergeWithPointer_of_ne_none {T : Type} {existing : Option T} (other : Option T)
    (h : existing ≠ none) : MergeWithPointer existing other = existing := by
  cases existing with
  | none => exact absurd rfl h
  | some v => rfl

theorem OverrideWithPointer_none {T : Type} (existing : Option T) :
    OverrideWithPointer existing none = existing := rfl

theorem OverrideWithPointer_of_ne_none {T : Type} (existing : Option T) {other : Option T}
    (h : other ≠ none) : OverrideWithPointer existing other = other := by
  cases other with
  | none => exact absurd rfl h
  | some v => rfl

theorem OverrideWithPointer_keeps_iff {T : Type} (existing other : Option T) :
    OverrideWithPointer existing other = existing ↔ (other = none ∨ other = existing) := by
  cases other with
  | none => simp [OverrideWithPointer]
  | some w =>
    simp only [OverrideWithPointer]
    constructor
    · intro h; exact Or.inr h
    · intro h
      rcases h with h | h
      · cases h
      · exact h

theorem OverrideWithString_keeps_iff (existing other : String) :
    OverrideWithString existing other = existing ↔ (other = "" ∨ other = existing) := by
  unfold OverrideWithString
  by_cases h : other = ""
  · simp [h]
  · simp [h]

theorem OverrideWithNumber_keeps_iff (existing other : Int) :
    OverrideWithNumber existing other = existing ↔ (other = 0 ∨ other = existing) := by
  unfold OverrideWithNumber
  by_cases h : other = 0
  · simp [h]
  · simp [h]

theorem DefaultPointer_ne_none {T : Type} (existing : Option T) (d : T) :
    DefaultPointer existing d ≠ none := by
  cases existing <;> simp [DefaultPointer]

theorem DefaultPointer_of_ne_none {T : Type} {existing : Option T} (d : T)
    (h : existing ≠ none) : DefaultPointer existing d = existing := by
  cases existing with
  | none => exact absurd rfl h
  | some v => rfl

theorem DefaultPointer_idem {T : Type} (existing : Option T) (d : T) :
    DefaultPointer (DefaultPointer existing d) d = DefaultPointer existing d := by
  cases existing <;> rfl

theorem DefaultPointer_eq_merge {T : Type} (existing : Option T) (d : T) :
    DefaultPointer existing d = MergeWithPointer existing (some d) := by
  cases existing <;> rfl

theorem DefaultString_ne_empty (existing d : String) (hd : d ≠ "") :
    DefaultString existing d ≠ "" := by
  unfold DefaultString
  by_cases h : existing = ""
  · simp [h, hd]
  · simp [h]

theorem DefaultString_idem (existing d : String) :
    DefaultString (DefaultString existing d) d = DefaultString existing d := by
  unfold DefaultString
  by_cases h : existing = ""
  · simp [h]
  · simp [h]

theorem DefaultNumber_ne_zero (existing d : Int) (hd : d ≠ 0) :
    DefaultNumber existing d ≠ 0 := by
  unfold DefaultNumber
  by_cases h : existing = 0
  · simp [h, hd]
  · simp [h]

theorem DefaultNumber_idem (existing d : Int) :
    DefaultNumber (DefaultNumber existing d) d = DefaultNumber existing d := by
  unfold DefaultNumber
  by_cases h : existing = 0
  · simp [h]
  · simp [h]

/-! ## Merge, override and defaulting of the HTTP proxy settings -/

/-- C1: after `A.mergeWith(B)` every field present in A (non-nil pointer, non-empty
listening address, non-zero timeout) holds the value it had in A, and every field
absent in A holds the value of that field in B, present or absent. -/
theorem HTTPProxy.mergeWith_preserves_and_fills (A B : HTTPProxy) :
    (A.User ≠ none → (A.mergeWith B).User = A.User) ∧
    (A.User = none → (A.mergeWith B).User = B.User) ∧
    (A.Password ≠ none → (A.mergeWith B).Password = A.Password) ∧
    (A.Password = none → (A.mergeWith B).Password = B.Password) ∧
    (A.CertFile ≠ none → (A.mergeWith B).CertFile = A.CertFile) ∧
    (A.CertFile = none → (A.mergeWith B).CertFile = B.CertFile) ∧
    (A.KeyFile ≠ none → (A.mergeWith B).KeyFile = A.KeyFile) ∧
    (A.KeyFile = none → (A.mergeWith B).KeyFile = B.KeyFile) ∧
    (A.ListeningAddress ≠ "" → (A.mergeWith B).ListeningAddress = A.ListeningAddress) ∧
    (A.ListeningAddress = "" → (A.mergeWith B).ListeningAddress = B.ListeningAddress) ∧
    (A.Enabled ≠ none → (A.mergeWith B).Enabled = A.Enabled) ∧
    (A.Enabled = none → (A.mergeWith B).Enabled = B.Enabled) ∧
    (A.Stealth ≠ none → (A.mergeWith B).Stealth = A.Stealth) ∧
    (A.Stealth = none → (A.mergeWith B).Stealth = B.Stealth) ∧
    (A.Log ≠ none → (A.mergeWith B).Log = A.Log) ∧
    (A.Log = none → (A.mergeWith B).Log = B.Log) ∧
    (A.ReadHeaderTimeout ≠ 0 → (A.mergeWith B).ReadHeaderTimeout = A.ReadHeaderTimeout) ∧
    (A.ReadHeaderTimeout = 0 → (A.mergeWith B).ReadHeaderTimeout = B.ReadHeaderTimeout) ∧
    (A.ReadTimeout ≠ 0 → (A.mergeWith B).ReadTimeout = A.ReadTimeout) ∧
    (A.ReadTimeout = 0 → (A.mergeWith B).ReadTimeout = B.ReadTimeout) := by
  refine ⟨?_, ?_, ?_, ?_, ?_, ?_, ?_, ?_, ?_, ?_, ?_, ?_, ?_, ?_, ?_, ?_, ?_, ?_, ?_, ?_⟩ <;>
    intro h <;>
    first
      | exact MergeWithPointer_of_ne_none _ h
      | (simp only [HTTPProxy.mergeWith, h]; exact MergeWithPointer_none _)
      | simp [HTTPProxy.mergeWith, MergeWithString, MergeWithNumber, h]

/-- C2: after `A.overrideWith(B)` every field present in B holds the value of B, and
a field keeps the value it had in A if and only if that field of B is absent or
equal to the field of A. -/
theorem HTTPProxy.overrideWith_replaces_iff (A B : HTTPProxy) :
    ((B.User ≠ none → (A.overrideWith B).User = B.User) ∧
      ((A.overrideWith B).User = A.User ↔ (B.User = none ∨ B.User = A.User))) ∧
    ((B.Password ≠ none → (A.overrideWith B).Password = B.Password) ∧
      ((A.overrideWith B).Password = A.Password ↔
        (B.Password = none ∨ B.Password = A.Password))) ∧
    ((B.CertFile ≠ none → (A.overrideWith B).CertFile = B.CertFile) ∧
      ((A.overrideWith B).CertFile = A.CertFile ↔
        (B.CertFile = none ∨ B.CertFile = A.CertFile))) ∧
    ((B.KeyFile ≠ none → (A.overrideWith B).KeyFile = B.KeyFile) ∧
      ((A.overrideWith B).KeyFile = A.KeyFile ↔
        (B.KeyFile = none ∨ B.KeyFile = A.KeyFile))) ∧
    ((B.ListeningAddress ≠ "" → (A.overrideWith B).ListeningAddress = B.ListeningAddress) ∧
      ((A.overrideWith B).ListeningAddress = A.ListeningAddress ↔
        (B.ListeningAddress = "" ∨ B.ListeningAddress = A.ListeningAddress))) ∧
    ((B.Enabled ≠ none → (A.overrideWith B).Enabled = B.Enabled) ∧
      ((A.overrideWith B).Enabled = A.Enabled ↔
        (B.Enabled = none ∨ B.Enabled = A.Enabled))) ∧
    ((B.Stealth ≠ none → (A.overrideWith B).Stealth = B.Stealth) ∧
      ((A.overrideWith B).Stealth = A.Stealth ↔
        (B.Stealth = none ∨ B.Stealth = A.Stealth))) ∧
    ((B.Log ≠ none → (A.overrideWith B).Log = B.Log) ∧
      ((A.overrideWith B).Log = A.Log ↔ (B.Log = none ∨ B.Log = A.Log))) ∧
    ((B.ReadHeaderTimeout ≠ 0 →
        (A.overrideWith B).ReadHeaderTimeout = B.ReadHeaderTimeout) ∧
      ((A.overrideWith B).ReadHeaderTimeout = A.ReadHeaderTimeout ↔
        (B.ReadHeaderTimeout = 0 ∨ B.ReadHeaderTimeout = A.ReadHeaderTimeout))) ∧
    ((B.ReadTimeout ≠ 0 → (A.overrideWith B).ReadTimeout = B.ReadTimeout) ∧
      ((A.overrideWith B).ReadTimeout = A.ReadTimeout ↔
        (B.ReadTimeout = 0 ∨ B.ReadTimeout = A.ReadTimeout))) := by
  refine ⟨⟨?_, ?_⟩, ⟨?_, ?_⟩, ⟨?_, ?_⟩, ⟨?_, ?_⟩, ⟨?_, ?_⟩, ⟨?_, ?_⟩, ⟨?_, ?_⟩, ⟨?_, ?_⟩,
    ⟨?_, ?_⟩, ⟨?_, ?_⟩⟩ <;>
    first
      | exact OverrideWithPointer_keeps_iff _ _
      | exact OverrideWithString_keeps_iff _ _
      | exact OverrideWithNumber_keeps_iff _ _
      | exact fun h => OverrideWithPointer_of_ne_none _ h
      | (intro h; simp [HTTPProxy.overrideWith, OverrideWithString, OverrideWithNumber, h])

/-- C3: for all entities A and B, the empty ones included, `A.mergeWith(B)` followed
by `setDefaults()` is Resolved: the seven pointer fields are non-nil, the listening
address is non-empty and both timeouts are non-zero. -/
theorem HTTPProxy.merge_then_setDefaults_resolved (A B : HTTPProxy) :
    ((A.mergeWith B).setDefaults).Resolved := by
  refine ⟨?_, ?_, ?_, ?_, ?_, ?_, ?_, ?_, ?_, ?_⟩
  · exact DefaultPointer_ne_none _ _
  · exact DefaultPointer_ne_none _ _
  · exact DefaultPointer_ne_none _ _
  · exact DefaultPointer_ne_none _ _
  · exact DefaultPointer_ne_none _ _
  · exact DefaultPointer_ne_none _ _
  · exact DefaultPointer_ne_none _ _
  · exact DefaultString_ne_empty _ _ (by decide)
  · exact DefaultNumber_ne_zero _ _ (by decide)
  · exact DefaultNumber_ne_zero _ _ (by decide)

/-- C4: `setDefaults` is idempotent: applying it twice gives the entity that applying
it once gives, field by field. -/
theorem HTTPProxy.setDefaults_idempotent (A : HTTPProxy) :
    A.setDefaults.setDefaults = A.setDefaults := by
  simp only [HTTPProxy.setDefaults, DefaultPointer_idem, DefaultString_idem,
    DefaultNumber_idem]

/-- C5: `setDefaults` on the empty entity gives empty strings for user, password,
certificate and key file, false for the three flags, ":8888", one second and three
seconds; and on any entity it changes no field that was already present. -/
theorem HTTPProxy.setDefaults_values (A : HTTPProxy) :
    HTTPProxy.empty.setDefaults =
      { User := some "", Password := some "", CertFile := some "", KeyFile := some "",
        ListeningAddress := ":8888", Enabled := some false, Stealth := some false,
        Log := some false, ReadHeaderTimeout := 1000000000,
        ReadTimeout := 3000000000 } ∧
    (A.User ≠ none → A.setDefaults.User = A.User) ∧
    (A.Password ≠ none → A.setDefaults.Password = A.Password) ∧
    (A.CertFile ≠ none → A.setDefaults.CertFile = A.CertFile) ∧
    (A.KeyFile ≠ none → A.setDefaults.KeyFile = A.KeyFile) ∧
    (A.ListeningAddress ≠ "" → A.setDefaults.ListeningAddress = A.ListeningAddress) ∧
    (A.Enabled ≠ none → A.setDefaults.Enabled = A.Enabled) ∧
    (A.Stealth ≠ none → A.setDefaults.Stealth = A.Stealth) ∧
    (A.Log ≠ none → A.setDefaults.Log = A.Log) ∧
    (A.ReadHeaderTimeout ≠ 0 → A.setDefaults.ReadHeaderTimeout = A.ReadHeaderTimeout) ∧
    (A.ReadTimeout ≠ 0 → A.setDefaults.ReadTimeout = A.ReadTimeout) := by
  refine ⟨by decide, ?_, ?_, ?_, ?_, ?_, ?_, ?_, ?_, ?_, ?_⟩ <;>
    intro h <;>
    first
      | exact DefaultPointer_of_ne_none _ h
      | simp [HTTPProxy.setDefaults, DefaultString, DefaultNumber, h]

/-- C6: defaulting is a degenerate merge: `A.setDefaults()` is the entity
`A.mergeWith(D)` for D the fragment with every field preset to its default. -/
theorem HTTPProxy.setDefaults_eq_mergeWith_defaults (A : HTTPProxy) :
    A.setDefaults = A.mergeWith HTTPProxy.defaultsFragment := by
  simp only [HTTPProxy.setDefaults, HTTPProxy.mergeWith, HTTPProxy.defaultsFragment,
    DefaultPointer_eq_merge, DefaultString, MergeWithString, DefaultNumber,
    MergeWithNumber, Second]
  rfl

/-! ## The library parsers against the base-10 integer literals -/

theorem digitsAcc_cons (n : Nat) (c : Char) (cs : List Char) :
    digitsAcc n (c :: cs) = digitsAcc (n * 10 + (c.toNat - 48)) cs := rfl

theorem digitsAcc_ge (cs : List Char) (n : Nat) : n ≤ digitsAcc n cs := by
  induction cs generalizing n with
  | nil => exact Nat.le_refl _
  | cons c cs ih =>
    rw [digitsAcc_cons]
    have := ih (n * 10 + (c.toNat - 48))
    omega

theorem digitValue_of_digit {c : Char} (h : isDecDigit c = true) :
    digitValue c = some (c.toNat - 48) := by
  simp only [isDecDigit, decide_eq_true_eq] at h
  simp [digitValue, h]

theorem digitValue_of_not_digit {c : Char} (h : isDecDigit c = false) :
    digitValue c = none ∨ ∃ d, digitValue c = some d ∧ 10 ≤ d := by
  simp only [isDecDigit, decide_eq_false_iff_not] at h
  unfold digitValue
  rw [if_neg h]
  by_cases h2 : 97 ≤ lower c.toNat ∧ lower c.toNat ≤ 122
  · right
    rw [if_pos h2]
    exact ⟨_, rfl, by omega⟩
  · left
    rw [if_neg h2]

theorem ParseUint.loop_spec (s0 : String) (maxVal : Nat) (hmax : maxVal < 2 ^ 64)
    (cs : List Char) (n : Nat) (hn : n ≤ maxVal) :
    (cs.all isDecDigit = true ∧ digitsAcc n cs ≤ maxVal →
      ParseUint.loop s0 10 (maxUint64 / 10 + 1) maxVal cs n = (digitsAcc n cs, none)) ∧
    (¬ (cs.all isDecDigit = true ∧ digitsAcc n cs ≤ maxVal) →
      ParseUint.loop s0 10 (maxUint64 / 10 + 1) maxVal cs n =
          (0, some (syntaxError "ParseUint" s0)) ∨
      ParseUint.loop s0 10 (maxUint64 / 10 + 1) maxVal cs n =
          (maxVal, some (rangeError "ParseUint" s0))) := by
  induction cs generalizing n with
  | nil =>
    constructor
    · intro _; rfl
    · intro h; exact absurd ⟨rfl, hn⟩ h
  | cons c cs ih =>
    have hcut : maxUint64 / 10 + 1 = 1844674407370955162 := by decide
    have hge := digitsAcc_ge cs (n * 10 + (c.toNat - 48))
    cases hc : isDecDigit c with
    | false =>
      constructor
      · intro h
        simp [List.all_cons, hc] at h
      · intro _
        left
        rcases digitValue_of_not_digit hc with hd | ⟨d, hd, hd10⟩
        · simp only [ParseUint.loop, hd]
        · simp only [ParseUint.loop, hd]
          rw [if_pos hd10]
    | true =>
      have hd := digitValue_of_digit hc
      have hlt : c.toNat - 48 < 10 := by
        simp only [isDecDigit, decide_eq_true_eq] at hc
        omega
      simp only [ParseUint.loop, hd, List.all_cons, hc, Bool.true_and, digitsAcc_cons, hcut]
      rw [if_neg (by omega)]
      by_cases h1 : n ≥ 1844674407370955162
      · rw [if_pos h1]
        constructor
        · intro h; omega
        · intro _; right; rfl
      · rw [if_neg h1]
        by_cases h2 : n * 10 + (c.toNat - 48) < 2 ^ 64
        · have e1 : n * 10 % 2 ^ 64 = n * 10 := Nat.mod_eq_of_lt (by omega)
          have e2 : (n * 10 + (c.toNat - 48)) % 2 ^ 64 = n * 10 + (c.toNat - 48) :=
            Nat.mod_eq_of_lt h2
          simp only [e1, e2]
          by_cases h3 : n * 10 + (c.toNat - 48) > maxVal
          · rw [if_pos (Or.inr h3)]
            constructor
            · intro h; omega
            · intro _; right; rfl
          · rw [if_neg (by omega)]
            exact ih _ (by omega)
        · have e1 : n * 10 % 2 ^ 64 = n * 10 := Nat.mod_eq_of_lt (by omega)
          have e2 : (n * 10 + (c.toNat - 48)) % 2 ^ 64 < n * 10 := by omega
          simp only [e1]
          rw [if_pos (Or.inl e2)]
          constructor
          · intro h; omega
          · intro _; right; rfl

theorem String.eq_empty_iff_data (s : String) : s = "" ↔ s.data = [] := by
  constructor
  · intro h; subst h; rfl
  · intro h
    cases s
    simp only at h
    subst h
    rfl

theorem ParseUint_spec (arch : Arch) (s : String) (bitSize bits : Nat)
    (hbits : bits = 32 ∨ bits = 64)
    (heff : (if bitSize = 0 then arch.IntSize else bitSize) = bits) :
    (s.data ≠ [] ∧ s.data.all isDecDigit = true ∧ digitsAcc 0 s.data ≤ 2 ^ bits - 1 →
      ParseUint arch s bitSize = (digitsAcc 0 s.data, none)) ∧
    (¬ (s.data ≠ [] ∧ s.data.all isDecDigit = true ∧ digitsAcc 0 s.data ≤ 2 ^ bits - 1) →
      ParseUint arch s bitSize = (0, some (syntaxError "ParseUint" s)) ∨
      ParseUint arch s bitSize = (2 ^ bits - 1, some (rangeError "ParseUint" s))) := by
  by_cases hs : s = ""
  · have hd : s.data = [] := (String.eq_empty_iff_data s).1 hs
    constructor
    · intro h; exact absurd hd h.1
    · intro _; left
      simp only [ParseUint, hs, if_true]
  · have hd : s.data ≠ [] := fun h => hs ((String.eq_empty_iff_data s).2 h)
    have hmv : (2 ^ bits % 2 ^ 64 + 2 ^ 64 - 1) % 2 ^ 64 = 2 ^ bits - 1 := by
      rcases hbits with h | h <;> subst h <;> decide
    have hle : ¬ bits > 64 := by omega
    have hlt : 2 ^ bits - 1 < 2 ^ 64 := by
      rcases hbits with h | h <;> subst h <;> decide
    have key := ParseUint.loop_spec s (2 ^ bits - 1) hlt s.data 0 (Nat.zero_le _)
    simp only [ParseUint, hs, if_false, heff, hle, hmv]
    constructor
    · intro h; exact key.1 ⟨h.2.1, h.2.2⟩
    · intro h
      exact key.2 (fun h2 => h ⟨hd, h2.1, h2.2⟩)

theorem signSplit_cases (s : String) :
    (∃ rest, s.data = '+' :: rest) ∨ (∃ rest, s.data = '-' :: rest) ∨
    (s.data = []) ∨ (∃ c rest, s.data = c :: rest ∧ c ≠ '+' ∧ c ≠ '-') := by
  cases h : s.data with
  | nil => simp
  | cons c rest =>
    by_cases h1 : c = '+'
    · left; exact ⟨rest, by rw [h1]⟩
    · by_cases h2 : c = '-'
      · right; left; exact ⟨rest, by rw [h2]⟩
      · right; right; right; exact ⟨c, rest, rfl, h1, h2⟩

theorem ParseInt.pickSign_plus {s : String} {rest : List Char} (h : s.data = '+' :: rest) :
    ParseInt.pickSign s = (false, String.mk rest) := by
  simp only [ParseInt.pickSign, h]

theorem ParseInt.pickSign_minus {s : String} {rest : List Char} (h : s.data = '-' :: rest) :
    ParseInt.pickSign s = (true, String.mk rest) := by
  simp only [ParseInt.pickSign, h]

theorem ParseInt.pickSign_other {s : String} {c : Char} {rest : List Char}
    (h : s.data = c :: rest) (h1 : c ≠ '+') (h2 : c ≠ '-') :
    ParseInt.pickSign s = (false, s) := by
  unfold ParseInt.pickSign
  split
  · rename_i heq; rw [h] at heq; injection heq with hc _; exact absurd hc h1
  · rename_i heq; rw [h] at heq; injection heq with hc _; exact absurd hc h2
  · rfl

theorem Atoi.stripSign_plus {s : String} {rest : List Char} (h : s.data = '+' :: rest) :
    Atoi.stripSign s = (true, rest) := by
  simp only [Atoi.stripSign, h]

theorem Atoi.stripSign_minus {s : String} {rest : List Char} (h : s.data = '-' :: rest) :
    Atoi.stripSign s = (true, rest) := by
  simp only [Atoi.stripSign, h]

theorem Atoi.stripSign_other {s : String} {c : Char} {rest : List Char}
    (h : s.data = c :: rest) (h1 : c ≠ '+') (h2 : c ≠ '-') :
    Atoi.stripSign s = (false, s.data) := by
  unfold Atoi.stripSign
  split
  · rename_i heq; rw [h] at heq; injection heq with hc _; exact absurd hc h2
  · rename_i heq; rw [h] at heq; injection heq with hc _; exact absurd hc h1
  · rfl

theorem decimalInteger_plus {s : String} {rest : List Char} (h : s.data = '+' :: rest) :
    decimalInteger s =
      if rest ≠ [] ∧ rest.all isDecDigit then some (digitsAcc 0 rest : Int) else none := by
  simp only [decimalInteger, h]

theorem decimalInteger_minus {s : String} {rest : List Char} (h : s.data = '-' :: rest) :
    decimalInteger s =
      if rest ≠ [] ∧ rest.all isDecDigit then some (-(digitsAcc 0 rest : Int)) else none := by
  simp only [decimalInteger, h]

theorem decimalInteger_other {s : String} {c : Char} {rest : List Char}
    (h : s.data = c :: rest) (h1 : c ≠ '+') (h2 : c ≠ '-') :
    decimalInteger s =
      if s.data ≠ [] ∧ s.data.all isDecDigit then some (digitsAcc 0 s.data : Int)
      else none := by
  unfold decimalInteger
  split
  · rename_i heq; rw [h] at heq; injection heq with hc _; exact absurd hc h1
  · rename_i heq; rw [h] at heq; injection heq with hc _; exact absurd hc h2
  · rfl

theorem decimalInteger_nil {s : String} (h : s.data = []) : decimalInteger s = none := by
  simp [decimalInteger, h]

theorem ParseInt.finish_spec (arch : Arch) (s0 : String) (neg : Bool) (un : Nat) :
    ((if neg then un ≤ 2 ^ (arch.IntSize - 1) else un < 2 ^ (arch.IntSize - 1)) →
      ParseInt.finish arch s0 0 neg un = ((if neg then -(un : Int) else (un : Int)), none)) ∧
    (¬ (if neg then un ≤ 2 ^ (arch.IntSize - 1) else un < 2 ^ (arch.IntSize - 1)) →
      (ParseInt.finish arch s0 0 neg un).2 = some (rangeError "ParseInt" s0)) := by
  cases arch <;> cases neg <;>
    simp only [ParseInt.finish, Arch.IntSize, wrapSigned, if_true, if_false, Bool.not_true,
      Bool.not_false, Bool.false_eq_true, false_and, true_and,
      Nat.reduceSub, Nat.reducePow, Nat.reduceMod, ge_iff_le, gt_iff_lt] <;>
    constructor <;> intro h
  all_goals first
    | rw [if_pos (by omega)]
    | (rw [if_neg (by omega)]
       refine Prod.ext ?_ rfl
       show _ = _
       omega)

theorem Arch.IntSize_cases (arch : Arch) : arch.IntSize = 32 ∨ arch.IntSize = 64 := by
  cases arch
  · exact Or.inl rfl
  · exact Or.inr rfl

theorem ParseInt_eval (arch : Arch) (s rest : String) (neg : Bool) (hs : s ≠ "")
    (hp : ParseInt.pickSign s = (neg, rest)) :
    ((rest.data ≠ [] ∧ rest.data.all isDecDigit = true ∧
        (if neg then digitsAcc 0 rest.data ≤ 2 ^ (arch.IntSize - 1)
          else digitsAcc 0 rest.data < 2 ^ (arch.IntSize - 1))) →
      ParseInt arch s 0 =
        ((if neg then -(digitsAcc 0 rest.data : Int) else (digitsAcc 0 rest.data : Int)),
          none)) ∧
    (¬ (rest.data ≠ [] ∧ rest.data.all isDecDigit = true ∧
        (if neg then digitsAcc 0 rest.data ≤ 2 ^ (arch.IntSize - 1)
          else digitsAcc 0 rest.data < 2 ^ (arch.IntSize - 1))) →
      (ParseInt arch s 0).2 ≠ none) := by
  have hw := arch.IntSize_cases
  have pu := ParseUint_spec arch rest 0 arch.IntSize hw (by simp)
  have hpow : (2 : Nat) ^ (arch.IntSize - 1) ≤ 2 ^ arch.IntSize - 1 := by
    rcases hw with h | h <;> rw [h] <;> decide
  have hpow2 : ¬ ((2 : Nat) ^ arch.IntSize - 1 ≤ 2 ^ (arch.IntSize - 1)) := by
    rcases hw with h | h <;> rw [h] <;> decide
  by_cases hg : rest.data ≠ [] ∧ rest.data.all isDecDigit = true ∧
      digitsAcc 0 rest.data ≤ 2 ^ arch.IntSize - 1
  · have e := pu.1 hg
    have fin := ParseInt.finish_spec arch s neg (digitsAcc 0 rest.data)
    have hP : ParseInt arch s 0 = ParseInt.finish arch s 0 neg (digitsAcc 0 rest.data) := by
      simp only [ParseInt, hs, if_false, hp, e]
    rw [hP]
    constructor
    · intro h; exact fin.1 h.2.2
    · intro h
      rw [fin.2 (fun h2 => h ⟨hg.1, hg.2.1, h2⟩)]
      simp
  · constructor
    · intro h
      exfalso
      apply hg
      refine ⟨h.1, h.2.1, ?_⟩
      have := h.2.2
      cases neg
      · simp only [Bool.false_eq_true, if_false] at this; omega
      · simp only [if_true] at this; omega
    · intro _
      rcases pu.2 hg with e | e
      · simp [ParseInt, hs, hp, e, syntaxError]
      · have fin := ParseInt.finish_spec arch s neg (2 ^ arch.IntSize - 1)
        have hP : ParseInt arch s 0 = ParseInt.finish arch s 0 neg (2 ^ arch.IntSize - 1) := by
          simp [ParseInt, hs, hp, e, rangeError]
        rw [hP, fin.2 ?_]
        · simp
        · cases neg
          · simp only [Bool.false_eq_true, if_false]; omega
          · simp only [if_true]; omega

theorem Arch.fitsInt_signed (arch : Arch) (neg : Bool) (v : Nat) :
    arch.fitsInt (if neg then -(v : Int) else (v : Int)) ↔
      (if neg then v ≤ 2 ^ (arch.IntSize - 1) else v < 2 ^ (arch.IntSize - 1)) := by
  cases arch <;> cases neg <;>
    simp only [Arch.fitsInt, Arch.IntSize, if_true, if_false, Bool.false_eq_true,
      Nat.reduceSub, Nat.reducePow] <;>
    omega

theorem ParseInt_decimal_aux (arch : Arch) (s rest : String) (neg : Bool)
    (hs : s.data ≠ []) (hp : ParseInt.pickSign s = (neg, rest))
    (hd : decimalInteger s =
      if rest.data ≠ [] ∧ rest.data.all isDecDigit = true then
        some (if neg then -(digitsAcc 0 rest.data : Int) else (digitsAcc 0 rest.data : Int))
      else none) :
    (∀ n, decimalInteger s = some n → arch.fitsInt n → ParseInt arch s 0 = (n, none)) ∧
    ((ParseInt arch s 0).2 = none → ∃ n, decimalInteger s = some n ∧ arch.fitsInt n) := by
  have hs2 : s ≠ "" := fun h => hs ((String.eq_empty_iff_data s).1 h)
  have ev := ParseInt_eval arch s rest neg hs2 hp
  have fs := arch.fitsInt_signed neg (digitsAcc 0 rest.data)
  constructor
  · intro n hn hfit
    rw [hd] at hn
    by_cases hg : rest.data ≠ [] ∧ rest.data.all isDecDigit = true
    · rw [if_pos hg] at hn
      injection hn with hn
      subst hn
      exact ev.1 ⟨hg.1, hg.2, fs.1 hfit⟩
    · rw [if_neg hg] at hn
      cases hn
  · intro hok
    by_cases hg : rest.data ≠ [] ∧ rest.data.all isDecDigit = true ∧
        (if neg then digitsAcc 0 rest.data ≤ 2 ^ (arch.IntSize - 1)
          else digitsAcc 0 rest.data < 2 ^ (arch.IntSize - 1))
    · refine ⟨_, ?_, fs.2 hg.2.2⟩
      rw [hd, if_pos ⟨hg.1, hg.2.1⟩]
    · exact absurd hok (ev.2 hg)

theorem ParseInt_decimal (arch : Arch) (s : String) :
    (∀ n, decimalInteger s = some n → arch.fitsInt n → ParseInt arch s 0 = (n, none)) ∧
    ((ParseInt arch s 0).2 = none → ∃ n, decimalInteger s = some n ∧ arch.fitsInt n) := by
  rcases signSplit_cases s with ⟨rest, h⟩ | ⟨rest, h⟩ | h | ⟨c, rest, h, h1, h2⟩
  · exact ParseInt_decimal_aux arch s (String.mk rest) false (by rw [h]; simp)
      (ParseInt.pickSign_plus h) (by rw [decimalInteger_plus h]; simp)
  · exact ParseInt_decimal_aux arch s (String.mk rest) true (by rw [h]; simp)
      (ParseInt.pickSign_minus h) (by rw [decimalInteger_minus h]; simp)
  · have hs : s = "" := (String.eq_empty_iff_data s).2 h
    constructor
    · intro n hn; rw [decimalInteger_nil h] at hn; cases hn
    · intro hok; simp [ParseInt, hs] at hok
  · exact ParseInt_decimal_aux arch s s false (by rw [h]; simp)
      (ParseInt.pickSign_other h h1 h2) (by rw [decimalInteger_other h h1 h2]; simp)

theorem Arch.toInt_of_fitsInt (arch : Arch) (x : Int) (h : arch.fitsInt x) :
    arch.toInt x = x := by
  cases arch <;>
    simp only [Arch.fitsInt, Arch.IntSize, Nat.reduceSub] at h <;>
    simp only [Arch.toInt, wrapSigned, Arch.IntSize, Nat.reduceSub] <;>
    omega

theorem Arch.fitsInt_of_nat_lt (arch : Arch) (v : Nat) (h : v < 2 ^ (arch.IntSize - 1)) :
    arch.fitsInt (v : Int) ∧ arch.fitsInt (-(v : Int)) := by
  cases arch <;>
    simp only [Arch.IntSize, Nat.reduceSub, Nat.reducePow] at h <;>
    simp only [Arch.fitsInt, Arch.IntSize, Nat.reduceSub] <;>
    omega

theorem digitsAcc_lt (cs : List Char) (n : Nat) (h : cs.all isDecDigit = true) :
    digitsAcc n cs < (n + 1) * 10 ^ cs.length := by
  induction cs generalizing n with
  | nil => simp [digitsAcc]
  | cons c cs ih =>
    simp only [List.all_cons, Bool.and_eq_true] at h
    have hc := h.1
    simp only [isDecDigit, decide_eq_true_eq] at hc
    rw [digitsAcc_cons]
    have := ih (n * 10 + (c.toNat - 48)) h.2
    have hle : (n * 10 + (c.toNat - 48) + 1) * 10 ^ cs.length ≤
        ((n + 1) * 10) * 10 ^ cs.length :=
      Nat.mul_le_mul_right _ (by omega)
    have e : (n + 1) * 10 ^ (c :: cs).length = ((n + 1) * 10) * 10 ^ cs.length := by
      rw [List.length_cons, Nat.pow_succ, Nat.mul_assoc, Nat.mul_comm (10 ^ cs.length) 10]
    rw [e]
    omega

theorem Atoi.fastLoop_spec (arch : Arch) (cs : List Char) (n : Nat)
    (hb : (n + 1) * 10 ^ cs.length ≤ 2 ^ (arch.IntSize - 1)) :
    Atoi.fastLoop arch cs (n : Int) =
      if cs.all isDecDigit = true then some (digitsAcc n cs : Int) else none := by
  induction cs generalizing n with
  | nil => simp [Atoi.fastLoop, digitsAcc]
  | cons c cs ih =>
    have hp : 0 < 10 ^ cs.length := Nat.pow_pos (by decide)
    have e : (n + 1) * 10 ^ (c :: cs).length = ((n + 1) * 10) * 10 ^ cs.length := by
      rw [List.length_cons, Nat.pow_succ, Nat.mul_assoc, Nat.mul_comm (10 ^ cs.length) 10]
    rw [e] at hb
    cases hc : isDecDigit c with
    | false =>
      have hc2 := hc
      simp only [isDecDigit, decide_eq_false_iff_not] at hc2
      have : c.toNat < 48 ∨ c.toNat - 48 > 9 := by omega
      simp [Atoi.fastLoop, this, hc]
    | true =>
      have hc2 := hc
      simp only [isDecDigit, decide_eq_true_eq] at hc2
      have hnot : ¬ (c.toNat < 48 ∨ c.toNat - 48 > 9) := by omega
      have hle : (n * 10 + (c.toNat - 48) + 1) * 10 ^ cs.length ≤
          ((n + 1) * 10) * 10 ^ cs.length :=
        Nat.mul_le_mul_right _ (by omega)
      have hle2 : n * 10 + (c.toNat - 48) + 1 ≤
          (n * 10 + (c.toNat - 48) + 1) * 10 ^ cs.length :=
        Nat.le_mul_of_pos_right _ hp
      have hfit : arch.fitsInt ((n * 10 + (c.toNat - 48) : Nat) : Int) :=
        (arch.fitsInt_of_nat_lt _ (by omega)).1
      have hcast : (n : Int) * 10 + ((c.toNat - 48 : Nat) : Int) =
          ((n * 10 + (c.toNat - 48) : Nat) : Int) := by push_cast; rfl
      simp only [Atoi.fastLoop, hnot, if_false, List.all_cons, hc, Bool.true_and,
        digitsAcc_cons]
      rw [hcast, arch.toInt_of_fitsInt _ hfit]
      exact ih _ (by omega)

theorem utf8ByteSize_go_ge (cs : List Char) : cs.length ≤ String.utf8ByteSize.go cs := by
  induction cs with
  | nil => exact Nat.le_refl _
  | cons c cs ih =>
    have := Char.utf8Size_pos c
    simp only [String.utf8ByteSize.go, List.length_cons]
    omega

theorem length_le_utf8ByteSize (s : String) : s.data.length ≤ s.utf8ByteSize := by
  cases s with
  | mk cs => exact utf8ByteSize_go_ge cs

theorem utf8ByteSize_pos_iff (s : String) : 0 < s.utf8ByteSize ↔ s.data ≠ [] := by
  cases s with
  | mk cs =>
    cases cs with
    | nil => simp [String.utf8ByteSize, String.utf8ByteSize.go]
    | cons c cs =>
      have := Char.utf8Size_pos c
      simp only [String.utf8ByteSize, String.utf8ByteSize.go]
      constructor
      · intro _; simp
      · intro _; omega

theorem Atoi_fast_aux (arch : Arch) (s : String) (signPresent neg : Bool) (body : List Char)
    (hfast : (arch.IntSize = 32 ∧ (0 < s.utf8ByteSize ∧ s.utf8ByteSize < 10)) ∨
      (arch.IntSize = 64 ∧ (0 < s.utf8ByteSize ∧ s.utf8ByteSize < 19)))
    (hstrip : Atoi.stripSign s = (signPresent, body))
    (hlen : body.length ≤ s.data.length)
    (hbody : body = [] → signPresent = true)
    (hneg : (s.data.head? = some '-') ↔ neg = true)
    (hd : decimalInteger s =
      if body ≠ [] ∧ body.all isDecDigit = true then
        some (if neg then -(digitsAcc 0 body : Int) else (digitsAcc 0 body : Int))
      else none) :
    (∀ n, decimalInteger s = some n → arch.fitsInt n → Atoi arch s = (n, none)) ∧
    ((Atoi arch s).2 = none → ∃ n, decimalInteger s = some n ∧ arch.fitsInt n) := by
  have hsl := length_le_utf8ByteSize s
  have hpow : 10 ^ body.length ≤ 2 ^ (arch.IntSize - 1) := by
    rcases hfast with ⟨hw, _, hl⟩ | ⟨hw, _, hl⟩
    · rw [hw]
      calc 10 ^ body.length ≤ 10 ^ 9 := Nat.pow_le_pow_right (by decide) (by omega)
        _ ≤ 2 ^ (32 - 1) := by decide
    · rw [hw]
      calc 10 ^ body.length ≤ 10 ^ 18 := Nat.pow_le_pow_right (by decide) (by omega)
        _ ≤ 2 ^ (64 - 1) := by decide
  have hloop := Atoi.fastLoop_spec arch body 0 (by omega)
  simp only [Nat.cast_zero] at hloop
  by_cases hgood : body ≠ [] ∧ body.all isDecDigit = true
  · have hv : digitsAcc 0 body < 2 ^ (arch.IntSize - 1) := by
      have := digitsAcc_lt body 0 hgood.2
      omega
    have hfit := arch.fitsInt_of_nat_lt _ hv
    have hblen : ¬ (signPresent = true ∧ body.length < 1) := by
      intro h
      have : body.length ≠ 0 := fun h0 => hgood.1 (List.length_eq_zero.1 h0)
      omega
    have hA : Atoi arch s =
        ((if neg then -(digitsAcc 0 body : Int) else (digitsAcc 0 body : Int)), none) := by
      simp only [Atoi, hfast, if_true, hstrip, hblen, if_false, hloop, hgood.2]
      cases neg with
      | false =>
        have : ¬ (s.data.head? = some '-') := fun h => by simpa using hneg.1 h
        simp [this]
      | true =>
        have : s.data.head? = some '-' := hneg.2 rfl
        simp only [this, if_true]
        rw [arch.toInt_of_fitsInt _ hfit.2]
    rw [hd, if_pos hgood, hA]
    constructor
    · intro n hn _
      injection hn with hn
      rw [hn]
    · intro _
      refine ⟨_, rfl, ?_⟩
      cases neg
      · exact hfit.1
      · exact hfit.2
  · rw [hd, if_neg hgood]
    constructor
    · intro n hn; cases hn
    · intro hok
      exfalso
      by_cases hb : body = []
      · have hsp := hbody hb
        simp [Atoi, hfast, hstrip, hsp, hb] at hok
      · have hall : ¬ (body.all isDecDigit = true) := fun h => hgood ⟨hb, h⟩
        have hblen : ¬ (signPresent = true ∧ body.length < 1) := by
          intro h
          have : body.length ≠ 0 := fun h0 => hb (List.length_eq_zero.1 h0)
          omega
        simp only [Atoi, hfast, if_true, hstrip, hblen, if_false, hloop, hall] at hok
        simp at hok

/-- The library function `Atoi` accepts exactly the base-10 integer literals whose
value fits the platform `int`, and returns that value. -/
theorem Atoi_spec (arch : Arch) (s : String) :
    (∀ n, decimalInteger s = some n → arch.fitsInt n → Atoi arch s = (n, none)) ∧
    ((Atoi arch s).2 = none → ∃ n, decimalInteger s = some n ∧ arch.fitsInt n) := by
  by_cases hfast : (arch.IntSize = 32 ∧ (0 < s.utf8ByteSize ∧ s.utf8ByteSize < 10)) ∨
      (arch.IntSize = 64 ∧ (0 < s.utf8ByteSize ∧ s.utf8ByteSize < 19))
  · have hpos : 0 < s.utf8ByteSize := by
      rcases hfast with ⟨_, h, _⟩ | ⟨_, h, _⟩ <;> exact h
    have hne := (utf8ByteSize_pos_iff s).1 hpos
    rcases signSplit_cases s with ⟨rest, h⟩ | ⟨rest, h⟩ | h | ⟨c, rest, h, h1, h2⟩
    · exact Atoi_fast_aux arch s true false rest hfast (Atoi.stripSign_plus h)
        (by rw [h]; simp) (fun _ => rfl) (by rw [h]; simp)
        (by rw [decimalInteger_plus h]; simp)
    · exact Atoi_fast_aux arch s true true rest hfast (Atoi.stripSign_minus h)
        (by rw [h]; simp) (fun _ => rfl) (by rw [h]; simp)
        (by rw [decimalInteger_minus h]; simp)
    · exact absurd h hne
    · exact Atoi_fast_aux arch s false false s.data hfast (Atoi.stripSign_other h h1 h2)
        (Nat.le_refl _) (fun hb => absurd hb hne) (by rw [h]; simp; exact h2)
        (by rw [decimalInteger_other h h1 h2]; simp)
  · have pd := ParseInt_decimal arch s
    have hA : Atoi arch s =
        (arch.toInt (ParseInt arch s 0).1,
          (ParseInt arch s 0).2.map fun nerr => { nerr with Func := "Atoi" }) := by
      simp only [Atoi, hfast, if_false]
    constructor
    · intro n hn hfit
      rw [hA, pd.1 n hn hfit]
      simp only [Option.map_none']
      rw [arch.toInt_of_fitsInt n hfit]
    · intro hok
      rw [hA] at hok
      apply pd.2
      cases h : (ParseInt arch s 0).2 with
      | none => rfl
      | some e => rw [h] at hok; simp at hok

/-! ## The port list -/

theorem Atoi_ok_value (arch : Arch) (s : String) (h : (Atoi arch s).2 = none) :
    decimalInteger s = some (Atoi arch s).1 ∧ arch.fitsInt (Atoi arch s).1 := by
  obtain ⟨n, hn, hfit⟩ := (Atoi_spec arch s).2 h
  have := (Atoi_spec arch s).1 n hn hfit
  rw [this]
  exact ⟨hn, hfit⟩

theorem Arch.fitsInt_of_port (arch : Arch) (n : Int) (h1 : 1 ≤ n) (h2 : n ≤ 65535) :
    arch.fitsInt n := by
  cases arch <;> simp only [Arch.fitsInt, Arch.IntSize, Nat.reduceSub] <;> omega

theorem isPortLiteral_iff (s : String) :
    isPortLiteral s = true ↔ ∃ n : Int, decimalInteger s = some n ∧ 1 ≤ n ∧ n ≤ 65535 := by
  unfold isPortLiteral
  cases h : decimalInteger s with
  | none => simp
  | some n => simp

/-- An entry passes both tests of the loop exactly when it is a port literal. -/
theorem portOk_iff (arch : Arch) (s : String) :
    ((Atoi arch s).2 = none ∧ ¬ ((Atoi arch s).1 < 1 ∨ (Atoi arch s).1 > 65535)) ↔
      isPortLiteral s = true := by
  rw [isPortLiteral_iff]
  constructor
  · rintro ⟨hok, hr⟩
    exact ⟨_, (Atoi_ok_value arch s hok).1, by omega, by omega⟩
  · rintro ⟨n, hn, h1, h2⟩
    have := (Atoi_spec arch s).1 n hn (arch.fitsInt_of_port n h1 h2)
    rw [this]
    exact ⟨rfl, by simp only; omega⟩

theorem uint16_of_port (n : Int) (h1 : 1 ≤ n) (h2 : n ≤ 65535) : ((uint16 n : Nat) : Int) = n := by
  unfold uint16
  omega

theorem stringsToPorts_loop_all_ok (arch : Arch) (Quote : String → String) (rest : List String)
    (done : List Nat) (h : ∀ s ∈ rest, isPortLiteral s = true) :
    stringsToPorts.loop arch Quote rest done.length (done ++ List.replicate rest.length 0) =
      (done ++ rest.map (fun s => uint16 (Atoi arch s).1), none) := by
  induction rest generalizing done with
  | nil => simp [stringsToPorts.loop]
  | cons s rest ih =>
    have hs := (portOk_iff arch s).2 (h s (List.mem_cons_self _ _))
    have hset : (done ++ List.replicate (s :: rest).length 0).set done.length
        (uint16 (Atoi arch s).1) =
        (done ++ [uint16 (Atoi arch s).1]) ++ List.replicate rest.length 0 := by
      rw [List.set_append_right _ _ (Nat.le_refl _)]
      simp [List.replicate_succ]
    simp only [stringsToPorts.loop, hs.1, hs.2, if_false]
    rw [hset]
    have := ih (done ++ [uint16 (Atoi arch s).1])
      (fun t ht => h t (List.mem_cons_of_mem _ ht))
    simp only [List.length_append, List.length_singleton] at this
    rw [this]
    simp

theorem stringsToPorts_loop_at_invalid (arch : Arch) (Quote : String → String) (s : String)
    (post : List String) (i : Nat) (ports : List Nat) (hs : isPortLiteral s = false) :
    stringsToPorts.loop arch Quote (s :: post) i ports =
      stringsToPorts.loop arch Quote [s] 0 [0] := by
  have hbad : ¬ ((Atoi arch s).2 = none ∧ ¬ ((Atoi arch s).1 < 1 ∨ (Atoi arch s).1 > 65535)) := by
    rw [portOk_iff, hs]; simp
  cases hA : (Atoi arch s).2 with
  | some err => simp only [stringsToPorts.loop, hA]
  | none =>
    have hr : (Atoi arch s).1 < 1 ∨ (Atoi arch s).1 > 65535 := by
      by_contra hc
      exact hbad ⟨hA, hc⟩
    simp only [stringsToPorts.loop, hA, hr, if_true]

theorem stringsToPorts_loop_first_invalid (arch : Arch) (Quote : String → String)
    (pre : List String) (s : String) (post : List String) (i : Nat) (ports : List Nat)
    (hpre : ∀ t ∈ pre, isPortLiteral t = true) (hs : isPortLiteral s = false) :
    stringsToPorts.loop arch Quote (pre ++ s :: post) i ports =
      stringsToPorts.loop arch Quote [s] 0 [0] := by
  induction pre generalizing i ports with
  | nil => exact stringsToPorts_loop_at_invalid arch Quote s post i ports hs
  | cons t pre ih =>
    have ht := (portOk_iff arch t).2 (hpre t (List.mem_cons_self _ _))
    simp only [List.cons_append, stringsToPorts.loop, ht.1, ht.2, if_false]
    exact ih _ _ (fun u hu => hpre u (List.mem_cons_of_mem _ hu))

/-- The result on a list with an invalid entry is the result on the singleton list of
its first invalid entry. -/
theorem stringsToPorts_of_firstInvalid (arch : Arch) (Quote : String → String)
    (ss : List String) (s : String) (h : firstInvalidPort ss = some s) :
    stringsToPorts arch Quote ss = stringsToPorts arch Quote [s] := by
  unfold firstInvalidPort at h
  obtain ⟨hs, pre, post, hss, hpre⟩ := List.find?_eq_some.1 h
  have hs2 : isPortLiteral s = false := by simpa using hs
  have hpre2 : ∀ t ∈ pre, isPortLiteral t = true := by
    intro t ht
    simpa using hpre t ht
  have hne : ¬ (ss.length = 0) := by rw [hss]; simp
  simp only [stringsToPorts, hne, if_false]
  rw [hss, stringsToPorts_loop_first_invalid arch Quote pre s post _ _ hpre2 hs2]
  simp

/-- The result on a singleton list with an invalid entry: no ports and an error. -/
theorem stringsToPorts_singleton_bad (arch : Arch) (Quote : String → String) (s : String)
    (hs : isPortLiteral s = false) :
    (stringsToPorts arch Quote [s]).1 = [] ∧ (stringsToPorts arch Quote [s]).2 ≠ none := by
  have hbad : ¬ ((Atoi arch s).2 = none ∧ ¬ ((Atoi arch s).1 < 1 ∨ (Atoi arch s).1 > 65535)) := by
    rw [portOk_iff, hs]; simp
  cases hA : (Atoi arch s).2 with
  | some err => simp [stringsToPorts, stringsToPorts.loop, hA]
  | none =>
    have hr : (Atoi arch s).1 < 1 ∨ (Atoi arch s).1 > 65535 := by
      by_contra hc
      exact hbad ⟨hA, hc⟩
    simp [stringsToPorts, stringsToPorts.loop, hA, hr]

theorem firstInvalidPort_eq_none (ss : List String) :
    firstInvalidPort ss = none ↔ ∀ s ∈ ss, isPortLiteral s = true := by
  simp [firstInvalidPort]

theorem stringsToPorts_all_ok (arch : Arch) (Quote : String → String) (ss : List String)
    (h : ∀ s ∈ ss, isPortLiteral s = true) :
    stringsToPorts arch Quote ss = (ss.map (fun s => uint16 (Atoi arch s).1), none) := by
  by_cases hne : ss.length = 0
  · have : ss = [] := List.length_eq_zero.1 hne
    subst this
    rfl
  · simp only [stringsToPorts, hne, if_false]
    have := stringsToPorts_loop_all_ok arch Quote ss [] h
    simpa using this

theorem stringsToPorts_singleton_parse (arch : Arch) (Quote : String → String) (s : String)
    (err : NumError) (h : (Atoi arch s).2 = some err) :
    stringsToPorts arch Quote [s] =
      ([], some (.wrapError
        (Sentinel.ErrPortParsing.Error ++ ": " ++ s ++ ": " ++ err.Error Quote)
        (.errorString .ErrPortParsing))) := by
  simp [stringsToPorts, stringsToPorts.loop, h]

theorem stringsToPorts_singleton_value (arch : Arch) (Quote : String → String) (s : String)
    (h : (Atoi arch s).2 = none) (hr : (Atoi arch s).1 < 1 ∨ (Atoi arch s).1 > 65535) :
    stringsToPorts arch Quote [s] =
      ([], some (.wrapError
        (Sentinel.ErrPortValue.Error ++ ": must be between 1 and 65535: " ++
          toString (Atoi arch s).1)
        (.errorString .ErrPortValue))) := by
  simp [stringsToPorts, stringsToPorts.loop, h, hr]

theorem stringsToPorts_err_firstInvalid (arch : Arch) (Quote : String → String)
    (ss : List String) (e : GoError) (h : (stringsToPorts arch Quote ss).2 = some e) :
    ∃ s, firstInvalidPort ss = some s ∧ isPortLiteral s = false ∧
      stringsToPorts arch Quote ss = stringsToPorts arch Quote [s] := by
  cases hf : firstInvalidPort ss with
  | none =>
    rw [stringsToPorts_all_ok arch Quote ss ((firstInvalidPort_eq_none ss).1 hf)] at h
    cases h
  | some s =>
    refine ⟨s, rfl, ?_, stringsToPorts_of_firstInvalid arch Quote ss s hf⟩
    have := List.find?_some hf
    simpa using this

theorem middle_isInfix (a s b : String) : s.data <:+: (a ++ s ++ b).data := by
  simp only [String.data_append]
  exact ⟨a.data, b.data, rfl⟩

/-- C7: `stringsToPorts(ss)` succeeds if and only if every entry is a base-10 integer
literal with value in [1, 65535]; on success the ports match the entries one by one,
in order, each port being numerically the value of its entry (the `uint16` conversion
truncates nothing); `["80","443"]` gives `[80, 443]` and the empty list gives an empty
result with no error. -/
theorem stringsToPorts_succeeds_iff (arch : Arch) (Quote : String → String)
    (ss : List String) :
    ((stringsToPorts arch Quote ss).2 = none ↔
      ∀ s ∈ ss, ∃ n : Int, decimalInteger s = some n ∧ 1 ≤ n ∧ n ≤ 65535) ∧
    ((stringsToPorts arch Quote ss).2 = none →
      List.Forall₂ (fun s (port : Nat) => decimalInteger s = some (port : Int) ∧ port < 65536)
        ss (stringsToPorts arch Quote ss).1) ∧
    stringsToPorts arch Quote ["80", "443"] = ([80, 443], none) ∧
    stringsToPorts arch Quote [] = ([], none) := by
  have hall : (stringsToPorts arch Quote ss).2 = none → ∀ s ∈ ss, isPortLiteral s = true := by
    intro h
    cases hf : firstInvalidPort ss with
    | none => exact (firstInvalidPort_eq_none ss).1 hf
    | some s =>
      exfalso
      have hs : isPortLiteral s = false := by
        have := List.find?_some hf
        simpa using this
      rw [stringsToPorts_of_firstInvalid arch Quote ss s hf] at h
      exact (stringsToPorts_singleton_bad arch Quote s hs).2 h
  refine ⟨⟨?_, ?_⟩, ?_, ?_, rfl⟩
  · intro h s hs
    exact (isPortLiteral_iff s).1 (hall h s hs)
  · intro h
    have h2 : ∀ s ∈ ss, isPortLiteral s = true := fun s hs => (isPortLiteral_iff s).2 (h s hs)
    rw [stringsToPorts_all_ok arch Quote ss h2]
  · intro h
    have h2 := hall h
    rw [stringsToPorts_all_ok arch Quote ss h2]
    simp only
    rw [List.forall₂_map_right_iff, List.forall₂_same]
    intro s hs
    have hok := (portOk_iff arch s).2 (h2 s hs)
    have hv := (Atoi_ok_value arch s hok.1).1
    have hcast := uint16_of_port (Atoi arch s).1 (by omega) (by omega)
    refine ⟨?_, ?_⟩
    · rw [hcast]; exact hv
    · unfold uint16; omega
  · cases arch <;> rfl

/-- C8, the claim as stated fails: the entry `99999999999999999999` is a base-10
integer literal whose value is outside [1, 65535], and the error is the parsing error
`ErrPortParsing`, not the range error `ErrPortValue`. -/
theorem stringsToPorts_huge_literal_is_parsing_error :
    firstInvalidPort ["99999999999999999999"] = some "99999999999999999999" ∧
    decimalInteger "99999999999999999999" = some 99999999999999999999 ∧
    stringsToPorts .bits64 quotePlain ["99999999999999999999"] =
      ([], some (.wrapError
        ("cannot parse port: 99999999999999999999: " ++
          "strconv.Atoi: parsing \"99999999999999999999\": value out of range")
        (.errorString .ErrPortParsing))) ∧
    (GoError.wrapError
        ("cannot parse port: 99999999999999999999: " ++
          "strconv.Atoi: parsing \"99999999999999999999\": value out of range")
        (.errorString .ErrPortParsing)).Is .ErrPortValue = false := by
  refine ⟨by decide, by decide, by decide, by decide⟩

/-- C8, amended: when `stringsToPorts` fails no ports are returned and the error is
determined by the first invalid entry in list order: if that entry is a base-10
integer literal whose value fits the platform `int` the error is the range error
`ErrPortValue`, and if it is no base-10 integer literal, or one whose value does not
fit `int`, the error is the parsing error `ErrPortParsing`. -/
theorem stringsToPorts_error_kind (arch : Arch) (Quote : String → String)
    (ss : List String) (e : GoError) (h : (stringsToPorts arch Quote ss).2 = some e) :
    (stringsToPorts arch Quote ss).1 = [] ∧
    ∃ s, firstInvalidPort ss = some s ∧
      ((∃ n, decimalInteger s = some n ∧ arch.fitsInt n) →
        e.Is .ErrPortValue = true ∧ e.Is .ErrPortParsing = false) ∧
      ((¬ ∃ n, decimalInteger s = some n ∧ arch.fitsInt n) →
        e.Is .ErrPortParsing = true ∧ e.Is .ErrPortValue = false) := by
  obtain ⟨s, hf, hs, hss⟩ := stringsToPorts_err_firstInvalid arch Quote ss e h
  rw [hss] at h ⊢
  refine ⟨(stringsToPorts_singleton_bad arch Quote s hs).1, s, hf, ?_⟩
  cases hA : (Atoi arch s).2 with
  | some err =>
    rw [stringsToPorts_singleton_parse arch Quote s err hA] at h
    injection h with h
    subst h
    constructor
    · rintro ⟨n, hn, hfit⟩
      rw [(Atoi_spec arch s).1 n hn hfit] at hA
      cases hA
    · intro _
      exact ⟨rfl, rfl⟩
  | none =>
    have hr : (Atoi arch s).1 < 1 ∨ (Atoi arch s).1 > 65535 := by
      by_contra hc
      have := (portOk_iff arch s).1 ⟨hA, hc⟩
      rw [hs] at this
      cases this
    rw [stringsToPorts_singleton_value arch Quote s hA hr] at h
    injection h with h
    subst h
    constructor
    · intro _
      exact ⟨rfl, rfl⟩
    · intro hno
      exact absurd ⟨_, Atoi_ok_value arch s hA⟩ hno

/-- C8, amended, at `["80","0","abc"]` on a 64-bit platform: the first invalid entry
is `0`, a literal that fits `int`, and the error is `ErrPortValue`. -/
theorem stringsToPorts_error_kind_witness :
    (stringsToPorts .bits64 quotePlain ["80", "0", "abc"]).2 =
      some (.wrapError "port value is not valid: must be between 1 and 65535: 0"
        (.errorString .ErrPortValue)) ∧
    ((stringsToPorts .bits64 quotePlain ["80", "0", "abc"]).1 = [] ∧
    ∃ s, firstInvalidPort ["80", "0", "abc"] = some s ∧
      ((∃ n, decimalInteger s = some n ∧ Arch.bits64.fitsInt n) →
        (GoError.wrapError "port value is not valid: must be between 1 and 65535: 0"
          (.errorString .ErrPortValue)).Is .ErrPortValue = true ∧
        (GoError.wrapError "port value is not valid: must be between 1 and 65535: 0"
          (.errorString .ErrPortValue)).Is .ErrPortParsing = false) ∧
      ((¬ ∃ n, decimalInteger s = some n ∧ Arch.bits64.fitsInt n) →
        (GoError.wrapError "port value is not valid: must be between 1 and 65535: 0"
          (.errorString .ErrPortValue)).Is .ErrPortParsing = true ∧
        (GoError.wrapError "port value is not valid: must be between 1 and 65535: 0"
          (.errorString .ErrPortValue)).Is .ErrPortValue = false)) :=
  ⟨by decide, stringsToPorts_error_kind .bits64 quotePlain ["80", "0", "abc"] _ (by decide)⟩

theorem infix_split_at {α : Type} (L A B : List α) (c : α) (h : L <:+: A ++ c :: B)
    (hc : c ∉ L) : L <:+: A ∨ L <:+: B := by
  induction A with
  | nil =>
    rw [List.nil_append, List.infix_cons_iff] at h
    rcases h with h | h
    · cases L with
      | nil => exact Or.inl List.nil_infix
      | cons x L =>
        have := List.cons_prefix_cons.1 h
        exact absurd (by rw [this.1]; exact List.mem_cons_self _ _) hc
    · exact Or.inr h
  | cons a A ih =>
    rw [List.cons_append, List.infix_cons_iff] at h
    rcases h with h | h
    · by_cases hl : L.length ≤ (a :: A).length
      · have h2 : a :: A <+: a :: (A ++ c :: B) := by
          rw [← List.cons_append]; exact List.prefix_append _ _
        exact Or.inl (List.prefix_of_prefix_length_le h h2 hl).isInfix
      · have h2 : (a :: A) ++ [c] <+: a :: (A ++ c :: B) := by
          rw [← List.cons_append]
          exact ⟨B, by simp⟩
        have h3 := List.prefix_of_prefix_length_le h2 h (by simp at hl ⊢; omega)
        exact absurd (h3.subset (by simp)) hc
    · rcases ih h with h | h
      · exact Or.inl (List.infix_cons h)
      · exact Or.inr h

theorem toString_natCast_length (v : Nat) :
    (toString (v : Int)).data.length = (Nat.repr v).length := rfl

theorem toString_neg_natCast_length (v : Nat) :
    (toString (-(v : Int))).data.length ≤ (Nat.repr v).length + 1 := by
  cases v with
  | zero => decide
  | succ w =>
    show ("-" ++ Nat.repr (w + 1)).data.length ≤ (Nat.repr (w + 1)).data.length + 1
    rw [String.data_append, List.length_append]
    have h1 : "-".data.length = 1 := rfl
    omega

/-- The decimal rendering of the value of a base-10 integer literal is no longer than
the literal. -/
theorem toString_length_le_of_decimalInteger (s : String) (n : Int)
    (h : decimalInteger s = some n) : (toString n).data.length ≤ s.data.length := by
  have key : ∀ ds : List Char, ds ≠ [] → ds.all isDecDigit = true →
      (Nat.repr (digitsAcc 0 ds)).length ≤ ds.length := by
    intro ds hne hall
    apply Nat.repr_length
    · exact List.length_pos.2 hne
    · have := digitsAcc_lt ds 0 hall
      simpa using this
  rcases signSplit_cases s with ⟨rest, hs⟩ | ⟨rest, hs⟩ | hs | ⟨c, rest, hs, h1, h2⟩
  · rw [decimalInteger_plus hs] at h
    split at h
    · rename_i hc
      injection h with h
      rw [← h, hs, toString_natCast_length]
      have := key rest hc.1 hc.2
      simp only [List.length_cons]
      omega
    · cases h
  · rw [decimalInteger_minus hs] at h
    split at h
    · rename_i hc
      injection h with h
      rw [← h, hs]
      have := key rest hc.1 hc.2
      have := toString_neg_natCast_length (digitsAcc 0 rest)
      simp only [List.length_cons]
      omega
    · cases h
  · rw [decimalInteger_nil hs] at h
    cases h
  · rw [decimalInteger_other hs h1 h2] at h
    split at h
    · rename_i hc
      injection h with h
      rw [← h, toString_natCast_length]
      exact key s.data hc.1 hc.2
    · cases h

/-- A base-10 integer literal holds no blank. -/
theorem blank_not_mem_of_decimalInteger (s : String) (n : Int)
    (h : decimalInteger s = some n) : ' ' ∉ s.data := by
  have key : ∀ ds : List Char, ds.all isDecDigit = true → ' ' ∉ ds := by
    intro ds hall hmem
    have := List.all_eq_true.1 hall ' ' hmem
    exact absurd this (by decide)
  rcases signSplit_cases s with ⟨rest, hs⟩ | ⟨rest, hs⟩ | hs | ⟨c, rest, hs, h1, h2⟩
  · rw [decimalInteger_plus hs] at h
    split at h
    · rename_i hc
      rw [hs]
      intro hmem
      rcases List.mem_cons.1 hmem with h1 | h1
      · exact absurd h1 (by decide)
      · exact key rest hc.2 h1
    · cases h
  · rw [decimalInteger_minus hs] at h
    split at h
    · rename_i hc
      rw [hs]
      intro hmem
      rcases List.mem_cons.1 hmem with h1 | h1
      · exact absurd h1 (by decide)
      · exact key rest hc.2 h1
    · cases h
  · rw [hs]
    exact List.not_mem_nil _
  · rw [decimalInteger_other hs h1 h2] at h
    split at h
    · rename_i hc
      exact key s.data hc.2
    · cases h

set_option maxRecDepth 1000000 in
/-- Every text that occurs in the fixed text of the port value message, its final
blank apart, is no base-10 integer literal or is a valid port entry. -/
theorem portValueText_infixes :
    ∀ t ∈ "port value is not valid: must be between 1 and 65535:".data.tails,
      ∀ L ∈ t.inits,
        decimalInteger (String.mk L) = none ∨ isPortLiteral (String.mk L) = true := by
  decide

/-- The port value message of an invalid entry that is a base-10 integer literal
contains the text of the entry exactly when the entry is the decimal rendering of its
value. -/
theorem portValueMessage_contains_iff (s : String) (n : Int)
    (hn : decimalInteger s = some n) (hbad : isPortLiteral s = false) :
    s.data <:+: ("port value is not valid: must be between 1 and 65535: " ++
      toString n).data ↔ s = toString n := by
  constructor
  · intro h
    have hsplit : ("port value is not valid: must be between 1 and 65535: " ++
        toString n).data =
        "port value is not valid: must be between 1 and 65535:".data ++
          ' ' :: (toString n).data := by
      rw [String.data_append]
      rfl
    rw [hsplit] at h
    rcases infix_split_at _ _ _ _ h (blank_not_mem_of_decimalInteger s n hn) with h | h
    · exfalso
      obtain ⟨t, ht1, ht2⟩ := List.infix_iff_prefix_suffix.1 h
      have := portValueText_infixes t ((List.mem_tails _ _).2 ht2) s.data
        ((List.mem_inits _ _).2 ht1)
      have e : String.mk s.data = s := rfl
      rw [e, hn, hbad] at this
      rcases this with h1 | h1 <;> cases h1
    · have hlen := toString_length_le_of_decimalInteger s n hn
      have := h.eq_of_length (Nat.le_antisymm h.length_le hlen)
      exact String.ext this
  · intro h
    rw [String.data_append, congrArg String.data h]
    exact (List.suffix_append _ _).isInfix

/-- C9, the claim as stated fails: on `["00"]` the first invalid entry is `00` and the
port value error message, which prints the parsed number `0`, does not contain the
text `00`. -/
theorem stringsToPorts_value_message_omits_literal :
    firstInvalidPort ["00"] = some "00" ∧
    stringsToPorts .bits64 quotePlain ["00"] =
      ([], some (.wrapError "port value is not valid: must be between 1 and 65535: 0"
        (.errorString .ErrPortValue))) ∧
    ¬ ("00".data <:+:
      ((GoError.wrapError "port value is not valid: must be between 1 and 65535: 0"
        (.errorString .ErrPortValue)).Error quotePlain).data) := by
  refine ⟨by decide, by decide, by decide⟩

/-- C9, amended: when `stringsToPorts` fails the error is a port parsing error or a
port value error. A port parsing error message contains the exact text of the first
invalid entry. A port value error message is the fixed text
`port value is not valid: must be between 1 and 65535: ` followed by the decimal
rendering of the integer value of the first invalid entry; it contains that rendering,
and it contains the exact text of the entry exactly when the entry is the decimal
rendering of its own value (as `0`, `-5` and `70000` are, and `00` and `+70000` are
not). -/
theorem stringsToPorts_error_message (arch : Arch) (Quote : String → String)
    (ss : List String) (e : GoError) (h : (stringsToPorts arch Quote ss).2 = some e) :
    ∃ s, firstInvalidPort ss = some s ∧
      (e.Is .ErrPortParsing = true ∨ e.Is .ErrPortValue = true) ∧
      (e.Is .ErrPortParsing = true →
        (∃ err, (Atoi arch s).2 = some err ∧
          e.Error Quote = "cannot parse port: " ++ s ++ (": " ++ err.Error Quote)) ∧
        s.data <:+: (e.Error Quote).data) ∧
      (e.Is .ErrPortValue = true →
        ∃ n, decimalInteger s = some n ∧
          e.Error Quote =
            "port value is not valid: must be between 1 and 65535: " ++ toString n ∧
          (toString n).data <:+: (e.Error Quote).data ∧
          (s.data <:+: (e.Error Quote).data ↔ s = toString n)) := by
  obtain ⟨s, hf, hs, hss⟩ := stringsToPorts_err_firstInvalid arch Quote ss e h
  rw [hss] at h
  refine ⟨s, hf, ?_⟩
  cases hA : (Atoi arch s).2 with
  | some err =>
    rw [stringsToPorts_singleton_parse arch Quote s err hA] at h
    injection h with h
    subst h
    refine ⟨Or.inl rfl, ?_, ?_⟩
    · intro _
      have hmsg : (GoError.wrapError
          (Sentinel.ErrPortParsing.Error ++ ": " ++ s ++ ": " ++ err.Error Quote)
          (.errorString .ErrPortParsing)).Error Quote =
          "cannot parse port: " ++ s ++ (": " ++ err.Error Quote) := by
        simp only [GoError.Error, Sentinel.Error, String.append_assoc]
        rfl
      refine ⟨⟨err, rfl, hmsg⟩, ?_⟩
      rw [hmsg]
      exact middle_isInfix _ _ _
    · intro hv
      exact absurd hv (by simp [GoError.Is])
  | none =>
    have hr : (Atoi arch s).1 < 1 ∨ (Atoi arch s).1 > 65535 := by
      by_contra hc
      have := (portOk_iff arch s).1 ⟨hA, hc⟩
      rw [hs] at this
      cases this
    rw [stringsToPorts_singleton_value arch Quote s hA hr] at h
    injection h with h
    subst h
    refine ⟨Or.inr rfl, ?_, ?_⟩
    · intro hp
      exact absurd hp (by simp [GoError.Is])
    · intro _
      have hmsg : (GoError.wrapError
          (Sentinel.ErrPortValue.Error ++ ": must be between 1 and 65535: " ++
            toString (Atoi arch s).1)
          (.errorString .ErrPortValue)).Error Quote =
          "port value is not valid: must be between 1 and 65535: " ++
            toString (Atoi arch s).1 := by
        simp only [GoError.Error, Sentinel.Error, String.append_assoc]
        rfl
      have hinf : (toString (Atoi arch s).1).data <:+:
          ("port value is not valid: must be between 1 and 65535: " ++
            toString (Atoi arch s).1).data := by
        simp only [String.data_append]
        exact (List.suffix_append _ _).isInfix
      refine ⟨_, (Atoi_ok_value arch s hA).1, hmsg, ?_, ?_⟩
      · rw [hmsg]
        exact hinf
      · rw [hmsg]
        exact portValueMessage_contains_iff s _ (Atoi_ok_value arch s hA).1 hs

/-- C9, amended, on a 64-bit platform. At `["443","8o"]` the error is a port parsing
error whose message contains the text `8o` of the first invalid entry. At
`["80","-5"]` the error is a port value error; the first invalid entry `-5` is the
decimal rendering of its value and the message, which ends in `: -5`, contains it.
The entries `0` and `70000` are the renderings of their values, `00` and `+70000` are
not, and the message for `+70000` does not contain it. -/
theorem stringsToPorts_error_message_witness :
    ((stringsToPorts .bits64 quotePlain ["443", "8o"]).2 =
        some (.wrapError
          "cannot parse port: 8o: strconv.Atoi: parsing \"8o\": invalid syntax"
          (.errorString .ErrPortParsing)) ∧
      firstInvalidPort ["443", "8o"] = some "8o" ∧
      "8o".data <:+:
        "cannot parse port: 8o: strconv.Atoi: parsing \"8o\": invalid syntax".data) ∧
    ((stringsToPorts .bits64 quotePlain ["80", "-5"]).2 =
        some (.wrapError "port value is not valid: must be between 1 and 65535: -5"
          (.errorString .ErrPortValue)) ∧
      firstInvalidPort ["80", "-5"] = some "-5" ∧
      decimalInteger "-5" = some (-5) ∧ "-5" = toString (-5 : Int) ∧
      "-5".data <:+: "port value is not valid: must be between 1 and 65535: -5".data) ∧
    (decimalInteger "0" = some 0 ∧ "0" = toString (0 : Int) ∧
      decimalInteger "70000" = some 70000 ∧ "70000" = toString (70000 : Int) ∧
      decimalInteger "00" = some 0 ∧ "00" ≠ toString (0 : Int) ∧
      decimalInteger "+70000" = some 70000 ∧ "+70000" ≠ toString (70000 : Int) ∧
      (stringsToPorts .bits64 quotePlain ["+70000"]).2 =
        some (.wrapError "port value is not valid: must be between 1 and 65535: 70000"
          (.errorString .ErrPortValue)) ∧
      ¬ ("+70000".data <:+:
        "port value is not valid: must be between 1 and 65535: 70000".data)) ∧
    (∃ s, firstInvalidPort ["443", "8o"] = some s ∧
      ((GoError.wrapError
          "cannot parse port: 8o: strconv.Atoi: parsing \"8o\": invalid syntax"
          (.errorString .ErrPortParsing)).Is .ErrPortParsing = true ∨
        (GoError.wrapError
          "cannot parse port: 8o: strconv.Atoi: parsing \"8o\": invalid syntax"
          (.errorString .ErrPortParsing)).Is .ErrPortValue = true) ∧
      ((GoError.wrapError
          "cannot parse port: 8o: strconv.Atoi: parsing \"8o\": invalid syntax"
          (.errorString .ErrPortParsing)).Is .ErrPortParsing = true →
        (∃ err, (Atoi .bits64 s).2 = some err ∧
          (GoError.wrapError
            "cannot parse port: 8o: strconv.Atoi: parsing \"8o\": invalid syntax"
            (.errorString .ErrPortParsing)).Error quotePlain =
            "cannot parse port: " ++ s ++ (": " ++ err.Error quotePlain)) ∧
        s.data <:+: ((GoError.wrapError
          "cannot parse port: 8o: strconv.Atoi: parsing \"8o\": invalid syntax"
          (.errorString .ErrPortParsing)).Error quotePlain).data) ∧
      ((GoError.wrapError
          "cannot parse port: 8o: strconv.Atoi: parsing \"8o\": invalid syntax"
          (.errorString .ErrPortParsing)).Is .ErrPortValue = true →
        ∃ n, decimalInteger s = some n ∧
          (GoError.wrapError
            "cannot parse port: 8o: strconv.Atoi: parsing \"8o\": invalid syntax"
            (.errorString .ErrPortParsing)).Error quotePlain =
            "port value is not valid: must be between 1 and 65535: " ++ toString n ∧
          (toString n).data <:+: ((GoError.wrapError
            "cannot parse port: 8o: strconv.Atoi: parsing \"8o\": invalid syntax"
            (.errorString .ErrPortParsing)).Error quotePlain).data ∧
          (s.data <:+: ((GoError.wrapError
            "cannot parse port: 8o: strconv.Atoi: parsing \"8o\": invalid syntax"
            (.errorString .ErrPortParsing)).Error quotePlain).data ↔ s = toString n))) ∧
    (∃ s, firstInvalidPort ["80", "-5"] = some s ∧
      ((GoError.wrapError "port value is not valid: must be between 1 and 65535: -5"
          (.errorString .ErrPortValue)).Is .ErrPortParsing = true ∨
        (GoError.wrapError "port value is not valid: must be between 1 and 65535: -5"
          (.errorString .ErrPortValue)).Is .ErrPortValue = true) ∧
      ((GoError.wrapError "port value is not valid: must be between 1 and 65535: -5"
          (.errorString .ErrPortValue)).Is .ErrPortParsing = true →
        (∃ err, (Atoi .bits64 s).2 = some err ∧
          (GoError.wrapError "port value is not valid: must be between 1 and 65535: -5"
            (.errorString .ErrPortValue)).Error quotePlain =
            "cannot parse port: " ++ s ++ (": " ++ err.Error quotePlain)) ∧
        s.data <:+: ((GoError.wrapError
          "port value is not valid: must be between 1 and 65535: -5"
          (.errorString .ErrPortValue)).Error quotePlain).data) ∧
      ((GoError.wrapError "port value is not valid: must be between 1 and 65535: -5"
          (.errorString .ErrPortValue)).Is .ErrPortValue = true →
        ∃ n, decimalInteger s = some n ∧
          (GoError.wrapError "port value is not valid: must be between 1 and 65535: -5"
            (.errorString .ErrPortValue)).Error quotePlain =
            "port value is not valid: must be between 1 and 65535: " ++ toString n ∧
          (toString n).data <:+: ((GoError.wrapError
            "port value is not valid: must be between 1 and 65535: -5"
            (.errorString .ErrPortValue)).Error quotePlain).data ∧
          (s.data <:+: ((GoError.wrapError
            "port value is not valid: must be between 1 and 65535: -5"
            (.errorString .ErrPortValue)).Error quotePlain).data ↔ s = toString n))) :=
  ⟨⟨by decide, by decide, by decide⟩,
    ⟨by decide, by decide, by decide, by decide, by decide⟩,
    ⟨by decide, by decide, by decide, by decide, by decide, by decide, by decide, by decide,
      by decide, by decide⟩,
    stringsToPorts_error_message .bits64 quotePlain ["443", "8o"] _ (by decide),
    stringsToPorts_error_message .bits64 quotePlain ["80", "-5"] _ (by decide)⟩

/-! ## The subnet list -/

theorem stringsToNetipPrefixes_loop_all_ok {Prefix : Type} (zero : Prefix)
    (ParsePrefix : String → Prefix × Option GoError) (Quote : String → String)
    (rest : List String) (done : List Prefix) (h : ∀ s ∈ rest, (ParsePrefix s).2 = none) :
    stringsToNetipPrefixes.loop ParsePrefix Quote rest done.length
        (done ++ List.replicate rest.length zero) =
      (done ++ rest.map (fun s => (ParsePrefix s).1), none) := by
  induction rest generalizing done with
  | nil => simp [stringsToNetipPrefixes.loop]
  | cons s rest ih =>
    have hs := h s (List.mem_cons_self _ _)
    have hset : (done ++ List.replicate (s :: rest).length zero).set done.length
        (ParsePrefix s).1 = (done ++ [(ParsePrefix s).1]) ++ List.replicate rest.length zero := by
      rw [List.set_append_right _ _ (Nat.le_refl _)]
      simp [List.replicate_succ]
    simp only [stringsToNetipPrefixes.loop, hs]
    rw [hset]
    have := ih (done ++ [(ParsePrefix s).1]) (fun t ht => h t (List.mem_cons_of_mem _ ht))
    simp only [List.length_append, List.length_singleton] at this
    rw [this]
    simp

theorem stringsToNetipPrefixes_loop_first_failure {Prefix : Type}
    (ParsePrefix : String → Prefix × Option GoError) (Quote : String → String)
    (pre : List String) (s : String) (post : List String) (err : GoError) (i : Nat)
    (ipPrefixes : List Prefix) (hpre : ∀ t ∈ pre, (ParsePrefix t).2 = none)
    (hs : (ParsePrefix s).2 = some err) :
    stringsToNetipPrefixes.loop ParsePrefix Quote (pre ++ s :: post) i ipPrefixes =
      ([], some (.wrapError
        ("parsing IP network " ++ Quote s ++ ": " ++ err.Error Quote) err)) := by
  induction pre generalizing i ipPrefixes with
  | nil => simp only [List.nil_append, stringsToNetipPrefixes.loop, hs]
  | cons t pre ih =>
    have ht := hpre t (List.mem_cons_self _ _)
    simp only [List.cons_append, stringsToNetipPrefixes.loop, ht]
    exact ih _ _ (fun u hu => hpre u (List.mem_cons_of_mem _ hu))

/-- A list either has only entries that parse, or splits at its first entry that
fails to parse. -/
theorem firstFailure_cases {Prefix : Type} (ParsePrefix : String → Prefix × Option GoError)
    (ss : List String) :
    (∀ s ∈ ss, (ParsePrefix s).2 = none) ∨
    ∃ pre s post err, ss = pre ++ s :: post ∧ (∀ t ∈ pre, (ParsePrefix t).2 = none) ∧
      (ParsePrefix s).2 = some err := by
  induction ss with
  | nil => left; intro s hs; exact absurd hs (List.not_mem_nil s)
  | cons a ss ih =>
    cases ha : (ParsePrefix a).2 with
    | some err => right; exact ⟨[], a, ss, err, rfl, fun t ht => absurd ht (List.not_mem_nil t), ha⟩
    | none =>
      rcases ih with h | ⟨pre, s, post, err, hss, hpre, hs⟩
      · left
        intro s hs
        rcases List.mem_cons.1 hs with h1 | h1
        · rw [h1]; exact ha
        · exact h s h1
      · right
        refine ⟨a :: pre, s, post, err, by rw [hss]; rfl, ?_, hs⟩
        intro t ht
        rcases List.mem_cons.1 ht with h1 | h1
        · rw [h1]; exact ha
        · exact hpre t h1

theorem stringsToNetipPrefixes_all_ok {Prefix : Type} (zero : Prefix)
    (ParsePrefix : String → Prefix × Option GoError) (Quote : String → String)
    (ss : List String) (h : ∀ s ∈ ss, (ParsePrefix s).2 = none) :
    stringsToNetipPrefixes zero ParsePrefix Quote ss =
      (ss.map (fun s => (ParsePrefix s).1), none) := by
  by_cases hne : ss.length = 0
  · have : ss = [] := List.length_eq_zero.1 hne
    subst this
    rfl
  · simp only [stringsToNetipPrefixes, hne, if_false]
    have := stringsToNetipPrefixes_loop_all_ok zero ParsePrefix Quote ss [] h
    simpa using this

theorem stringsToNetipPrefixes_first_failure {Prefix : Type} (zero : Prefix)
    (ParsePrefix : String → Prefix × Option GoError) (Quote : String → String)
    (pre : List String) (s : String) (post : List String) (err : GoError)
    (hpre : ∀ t ∈ pre, (ParsePrefix t).2 = none) (hs : (ParsePrefix s).2 = some err) :
    stringsToNetipPrefixes zero ParsePrefix Quote (pre ++ s :: post) =
      ([], some (.wrapError
        ("parsing IP network " ++ Quote s ++ ": " ++ err.Error Quote) err)) := by
  have hne : ¬ ((pre ++ s :: post).length = 0) := by simp
  simp only [stringsToNetipPrefixes, hne, if_false]
  exact stringsToNetipPrefixes_loop_first_failure ParsePrefix Quote pre s post err _ _ hpre hs

/-- C10: `stringsToNetipPrefixes(ss)` succeeds if and only if every entry parses as an
IP prefix; on success the result is the list of the parses, in order (so an accepted
`10.0.0.0/8` gives its prefix and the empty list gives an empty result); on failure no
prefixes are returned and the error message names, quoted, the first entry that fails
to parse. -/
theorem stringsToNetipPrefixes_spec {Prefix : Type} (zero : Prefix)
    (ParsePrefix : String → Prefix × Option GoError) (Quote : String → String)
    (ss : List String) :
    ((stringsToNetipPrefixes zero ParsePrefix Quote ss).2 = none ↔
      ∀ s ∈ ss, (ParsePrefix s).2 = none) ∧
    ((stringsToNetipPrefixes zero ParsePrefix Quote ss).2 = none →
      (stringsToNetipPrefixes zero ParsePrefix Quote ss).1 =
        ss.map (fun s => (ParsePrefix s).1)) ∧
    ((ParsePrefix "10.0.0.0/8").2 = none →
      stringsToNetipPrefixes zero ParsePrefix Quote ["10.0.0.0/8"] =
        ([(ParsePrefix "10.0.0.0/8").1], none)) ∧
    stringsToNetipPrefixes zero ParsePrefix Quote [] = ([], none) ∧
    (∀ e, (stringsToNetipPrefixes zero ParsePrefix Quote ss).2 = some e →
      (stringsToNetipPrefixes zero ParsePrefix Quote ss).1 = [] ∧
      ∃ pre s post err, ss = pre ++ s :: post ∧
        (∀ t ∈ pre, (ParsePrefix t).2 = none) ∧ (ParsePrefix s).2 = some err ∧
        e.Error Quote = "parsing IP network " ++ Quote s ++ (": " ++ err.Error Quote) ∧
        (Quote s).data <:+: (e.Error Quote).data) := by
  have hex : (ParsePrefix "10.0.0.0/8").2 = none →
      stringsToNetipPrefixes zero ParsePrefix Quote ["10.0.0.0/8"] =
        ([(ParsePrefix "10.0.0.0/8").1], none) := by
    intro h
    rw [stringsToNetipPrefixes_all_ok zero ParsePrefix Quote ["10.0.0.0/8"]
      (fun s hs => by rw [List.mem_singleton.1 hs]; exact h)]
    rfl
  rcases firstFailure_cases ParsePrefix ss with hall | ⟨pre, s, post, err, hss, hpre, hs⟩
  · have hR := stringsToNetipPrefixes_all_ok zero ParsePrefix Quote ss hall
    refine ⟨⟨fun _ => hall, fun _ => by rw [hR]⟩, fun _ => by rw [hR], hex, rfl, ?_⟩
    intro e he
    rw [hR] at he
    cases he
  · have hR := stringsToNetipPrefixes_first_failure zero ParsePrefix Quote pre s post err
      hpre hs
    rw [← hss] at hR
    refine ⟨⟨?_, ?_⟩, ?_, hex, rfl, ?_⟩
    · intro h; rw [hR] at h; cases h
    · intro h
      have := h s (by rw [hss]; simp)
      rw [hs] at this
      cases this
    · intro h; rw [hR] at h; cases h
    · intro e he
      rw [hR] at he ⊢
      injection he with he
      subst he
      have hmsg : (GoError.wrapError
          ("parsing IP network " ++ Quote s ++ ": " ++ err.Error Quote) err).Error Quote =
          "parsing IP network " ++ Quote s ++ (": " ++ err.Error Quote) := by
        simp only [GoError.Error, String.append_assoc]
      refine ⟨rfl, pre, s, post, err, hss, hpre, hs, hmsg, ?_⟩
      rw [hmsg]
      exact middle_isInfix _ _ _

/-- C10 at concrete lists, with the example parser and quoting: `10.0.0.0/8` is
accepted, and on `["10.0.0.0/8","not-an-ip"]` no prefix is returned and the message
names `"not-an-ip"`, quoted. -/
theorem stringsToNetipPrefixes_spec_witness :
    stringsToNetipPrefixes { octets := [], bits := 0 } parsePrefixIPv4 quotePlain
        ["10.0.0.0/8"] = ([{ octets := [10, 0, 0, 0], bits := 8 }], none) ∧
    stringsToNetipPrefixes { octets := [], bits := 0 } parsePrefixIPv4 quotePlain
        ["10.0.0.0/8", "not-an-ip"] =
      ([], some (.wrapError
        ("parsing IP network \"not-an-ip\": " ++
          "netip.ParsePrefix(\"not-an-ip\"): not an IPv4 prefix")
        (.foreign "netip.ParsePrefix(\"not-an-ip\"): not an IPv4 prefix"))) ∧
    "\"not-an-ip\"".data <:+:
      ("parsing IP network \"not-an-ip\": " ++
        "netip.ParsePrefix(\"not-an-ip\"): not an IPv4 prefix").data ∧
    ((stringsToNetipPrefixes { octets := [], bits := 0 } parsePrefixIPv4 quotePlain
        ["10.0.0.0/8", "not-an-ip"]).2 = none ↔
      ∀ s ∈ ["10.0.0.0/8", "not-an-ip"], (parsePrefixIPv4 s).2 = none) :=
  ⟨by decide, by decide, by decide,
    (stringsToNetipPrefixes_spec { octets := [], bits := 0 } parsePrefixIPv4 quotePlain
      ["10.0.0.0/8", "not-an-ip"]).1⟩

/-! ## Copy, duality and rendering of the HTTP proxy settings -/

theorem CopyPointer_eq {T : Type} (p : Option T) : CopyPointer p = p := by
  cases p <;> rfl

theorem OverrideWithPointer_eq_merge {T : Type} (a b : Option T) :
    OverrideWithPointer a b = MergeWithPointer b a := by
  cases a <;> cases b <;> rfl

theorem OverrideWithString_eq_merge (a b : String) :
    OverrideWithString a b = MergeWithString b a := by
  unfold OverrideWithString MergeWithString
  by_cases h : b = "" <;> simp [h]

theorem OverrideWithNumber_eq_merge (a b : Int) :
    OverrideWithNumber a b = MergeWithNumber b a := by
  unfold OverrideWithNumber MergeWithNumber
  by_cases h : b = 0 <;> simp [h]

theorem HTTPProxy.toLinesNode_disabled (lib : RenderLib) (h : HTTPProxy)
    (he : h.Enabled = some false) :
    h.toLinesNode lib =
      some (.mk "HTTP proxy settings:"
        [.mk ("Enabled: " ++ lib.BoolToYesNo (some false)) []]) := by
  simp [HTTPProxy.toLinesNode, he, Node.New, Node.Appendf, Node.value, Node.children]

theorem HTTPProxy.toLinesNode_enabled (lib : RenderLib) (h : HTTPProxy)
    (user password certFile keyFile : String)
    (he : h.Enabled = some true) (hu : h.User = some user) (hp : h.Password = some password)
    (hc : h.CertFile = some certFile) (hk : h.KeyFile = some keyFile) :
    h.toLinesNode lib =
      some (.mk "HTTP proxy settings:"
        [.mk ("Enabled: " ++ lib.BoolToYesNo (some true)) [],
          .mk ("Listening address: " ++ h.ListeningAddress) [],
          .mk ("User: " ++ user) [],
          .mk ("Password: " ++ lib.ObfuscateKey password) [],
          .mk ("CertFile: " ++ certFile) [],
          .mk ("KeyFile: " ++ keyFile) [],
          .mk ("Stealth mode: " ++ lib.BoolToYesNo h.Stealth) [],
          .mk ("Log: " ++ lib.BoolToYesNo h.Log) [],
          .mk ("Read header timeout: " ++ lib.DurationString h.ReadHeaderTimeout) [],
          .mk ("Read timeout: " ++ lib.DurationString h.ReadTimeout) []]) := by
  simp [HTTPProxy.toLinesNode, he, hu, hp, hc, hk, Node.New, Node.Appendf, Node.value,
    Node.children]

theorem HTTPProxy.toLinesNode_nil_enabled (lib : RenderLib) (h : HTTPProxy)
    (he : h.Enabled = none) : h.toLinesNode lib = none := by
  simp [HTTPProxy.toLinesNode, he]

theorem HTTPProxy.toLinesNode_nil_user (lib : RenderLib) (h : HTTPProxy)
    (he : h.Enabled = some true) (hu : h.User = none) : h.toLinesNode lib = none := by
  simp [HTTPProxy.toLinesNode, he, hu]

theorem HTTPProxy.Resolved.fields {h : HTTPProxy} (hr : h.Resolved) :
    ∃ user password certFile keyFile enabled stealth log,
      h.User = some user ∧ h.Password = some password ∧ h.CertFile = some certFile ∧
      h.KeyFile = some keyFile ∧ h.Enabled = some enabled ∧ h.Stealth = some stealth ∧
      h.Log = some log := by
  obtain ⟨h1, h2, h3, h4, h5, h6, h7, _⟩ := hr
  obtain ⟨user, hu⟩ := Option.ne_none_iff_exists'.1 h1
  obtain ⟨password, hp⟩ := Option.ne_none_iff_exists'.1 h2
  obtain ⟨certFile, hc⟩ := Option.ne_none_iff_exists'.1 h3
  obtain ⟨keyFile, hk⟩ := Option.ne_none_iff_exists'.1 h4
  obtain ⟨enabled, he⟩ := Option.ne_none_iff_exists'.1 h5
  obtain ⟨stealth, hs⟩ := Option.ne_none_iff_exists'.1 h6
  obtain ⟨log, hl⟩ := Option.ne_none_iff_exists'.1 h7
  exact ⟨user, password, certFile, keyFile, enabled, stealth, log, hu, hp, hc, hk, he, hs, hl⟩

theorem exampleProxy_resolved : exampleProxy.Resolved := by
  unfold HTTPProxy.Resolved exampleProxy
  decide

theorem String.append_left_cancel (a b c : String) (h : a ++ b = a ++ c) : b = c := by
  have hd := congrArg String.data h
  rw [String.data_append, String.data_append] at hd
  exact String.ext (List.append_cancel_left hd)

/-- The password line of an enabled entity with the four dereferenced fields present
is the label followed by the redaction of the password. -/
theorem HTTPProxy.passwordLine_enabled (lib : RenderLib) (h : HTTPProxy)
    (user password certFile keyFile : String)
    (he : h.Enabled = some true) (hu : h.User = some user) (hp : h.Password = some password)
    (hc : h.CertFile = some certFile) (hk : h.KeyFile = some keyFile) :
    h.passwordLine lib = some ("Password: " ++ lib.ObfuscateKey password) := by
  simp [HTTPProxy.passwordLine,
    HTTPProxy.toLinesNode_enabled lib h user password certFile keyFile he hu hp hc hk,
    Node.lines, Node.children, Node.value]

/-- C15, the claim as stated fails: the Resolved entity `exampleProxy` is enabled and
has the non-empty password `P`; its password line is `Password: [set]`, which contains
`P`, and with any other redaction function the line still starts with `Password: `
and contains `P`. -/
theorem HTTPProxy.passwordLine_contains_password :
    exampleProxy.Resolved ∧ exampleProxy.Enabled = some true ∧
    exampleProxy.Password = some "P" ∧
    exampleProxy.passwordLine exampleRenderLib = some "Password: [set]" ∧
    "P".data <:+: "Password: [set]".data ∧
    (∀ lib : RenderLib, ∃ line, exampleProxy.passwordLine lib = some line ∧
      "P".data <:+: line.data) := by
  refine ⟨exampleProxy_resolved, rfl, rfl, by decide, by decide, ?_⟩
  intro lib
  refine ⟨"Password: " ++ lib.ObfuscateKey "P",
    HTTPProxy.passwordLine_enabled lib exampleProxy "u" "P" "" "" rfl rfl rfl rfl rfl, ?_⟩
  simp only [String.data_append]
  exact ⟨[], "assword: ".data ++ (lib.ObfuscateKey "P").data, by simp⟩

/-- C15, amended: for every Resolved entity with Enabled true and every non-empty
password p, the rendered password line is the label `Password: ` followed by the
redaction `ObfuscateKey(p)` of p, whatever the redaction function is; so the line
contains p as a substring only when p occurs in the label followed by its own
redaction (as the password `P` occurs in the label), and never when p is longer than
the label followed by its redaction. -/
theorem HTTPProxy.passwordLine_redacted (lib : RenderLib) (h : HTTPProxy) (p : String)
    (hr : h.Resolved) (he : h.Enabled = some true) (hp : h.Password = some p)
    (hne : p ≠ "") :
    h.passwordLine lib = some ("Password: " ++ lib.ObfuscateKey p) ∧
    (∀ line, h.passwordLine lib = some line → p.data <:+: line.data →
      p.data <:+: ("Password: " ++ lib.ObfuscateKey p).data) ∧
    (("Password: " ++ lib.ObfuscateKey p).length < p.length →
      ∀ line, h.passwordLine lib = some line → ¬ (p.data <:+: line.data)) := by
  obtain ⟨user, password, certFile, keyFile, enabled, stealth, log, hu, _, hc, hk, _, _, _⟩ :=
    hr.fields
  have _ := hne
  have hline := HTTPProxy.passwordLine_enabled lib h user p certFile keyFile he hu hp hc hk
  refine ⟨hline, ?_, ?_⟩
  · intro line hl2 hin
    rw [hline] at hl2
    injection hl2 with hl2
    rw [hl2]
    exact hin
  · intro hlen line hl2 hin
    rw [hline] at hl2
    injection hl2 with hl2
    rw [← hl2] at hin
    have hle := hin.length_le
    have hlen2 : ("Password: " ++ lib.ObfuscateKey p).data.length < p.data.length := hlen
    omega

/-- C15, amended, at the entity `exampleProxy` with the password `longPassword` of 64
characters: the line is `Password: 012...def`, of 19 characters, and does not contain
the password. -/
theorem HTTPProxy.passwordLine_redacted_witness :
    ({ exampleProxy with Password := some longPassword } : HTTPProxy).passwordLine
        exampleRenderLib = some "Password: 012...def" ∧
    longPassword.length = 64 ∧
    ("Password: " ++ exampleRenderLib.ObfuscateKey longPassword).length = 19 ∧
    (∀ line, ({ exampleProxy with Password := some longPassword } : HTTPProxy).passwordLine
        exampleRenderLib = some line → ¬ (longPassword.data <:+: line.data)) :=
  ⟨by decide, by decide, by decide,
    (HTTPProxy.passwordLine_redacted exampleRenderLib
      { exampleProxy with Password := some longPassword } longPassword
      (by unfold HTTPProxy.Resolved exampleProxy; decide) rfl rfl (by decide)).2.2
      (by decide)⟩

/-- C16, the claim as stated fails: the two Resolved entities that differ only in the
non-empty passwords `longPassword` and `otherLongPassword` render the password lines
`Password: 012...def` and `Password: fed...210`, and `String()` returns different
texts for them. -/
theorem HTTPProxy.GoString_differs_on_long_passwords :
    ({ exampleProxy with Password := some longPassword } : HTTPProxy).Resolved ∧
    ({ exampleProxy with Password := some otherLongPassword } : HTTPProxy) =
      { ({ exampleProxy with Password := some longPassword } : HTTPProxy) with
        Password := some otherLongPassword } ∧
    longPassword ≠ "" ∧ otherLongPassword ≠ "" ∧
    ({ exampleProxy with Password := some longPassword } : HTTPProxy).passwordLine
        exampleRenderLib = some "Password: 012...def" ∧
    ({ exampleProxy with Password := some otherLongPassword } : HTTPProxy).passwordLine
        exampleRenderLib = some "Password: fed...210" ∧
    ({ exampleProxy with Password := some longPassword } : HTTPProxy).GoString
        exampleRenderLib ≠
      ({ exampleProxy with Password := some otherLongPassword } : HTTPProxy).GoString
        exampleRenderLib := by
  refine ⟨by unfold HTTPProxy.Resolved exampleProxy; decide, rfl, by decide, by decide,
    by decide, by decide, by decide⟩

/-- C16, amended: for two Resolved entities that differ only in Password, both
passwords non-empty, `String()` returns a text for each; the two trees of lines are
equal exactly when the proxy is disabled or the redaction function gives the two
passwords the same text, and in these cases `String()` returns the same text for
both. -/
theorem HTTPProxy.GoString_equal_of_redaction (lib : RenderLib) (h1 h2 : HTTPProxy)
    (p1 p2 : String) (hr : h1.Resolved) (hp1 : h1.Password = some p1)
    (hdiff : h2 = { h1 with Password := some p2 }) (hne1 : p1 ≠ "") (hne2 : p2 ≠ "") :
    h2.Resolved ∧ (h1.GoString lib).isSome = true ∧ (h2.GoString lib).isSome = true ∧
    (h1.toLinesNode lib = h2.toLinesNode lib ↔
      (h1.Enabled = some false ∨ lib.ObfuscateKey p1 = lib.ObfuscateKey p2)) ∧
    ((h1.Enabled = some false ∨ lib.ObfuscateKey p1 = lib.ObfuscateKey p2) →
      h1.GoString lib = h2.GoString lib) := by
  obtain ⟨user, password, certFile, keyFile, enabled, stealth, log, hu, hp, hc, hk, he, hs, hl⟩ :=
    hr.fields
  have _ := hne1
  have _ := hne2
  have hr2 : h2.Resolved := by
    rw [hdiff]
    obtain ⟨a1, _, a3, a4, a5, a6, a7, a8, a9, a10⟩ := hr
    exact ⟨a1, by simp, a3, a4, a5, a6, a7, a8, a9, a10⟩
  have e3 : h2.ListeningAddress = h1.ListeningAddress := by rw [hdiff]
  have e4 : h2.ReadHeaderTimeout = h1.ReadHeaderTimeout := by rw [hdiff]
  have e5 : h2.ReadTimeout = h1.ReadTimeout := by rw [hdiff]
  have e6 : h2.Stealth = h1.Stealth := by rw [hdiff]
  have e7 : h2.Log = h1.Log := by rw [hdiff]
  cases enabled with
  | false =>
    have t1 := HTTPProxy.toLinesNode_disabled lib h1 he
    have t2 := HTTPProxy.toLinesNode_disabled lib h2 (by rw [hdiff]; exact he)
    refine ⟨hr2, by simp [HTTPProxy.GoString, t1], by simp [HTTPProxy.GoString, t2], ?_, ?_⟩
    · rw [t1, t2]
      exact ⟨fun _ => Or.inl he, fun _ => rfl⟩
    · intro _
      simp [HTTPProxy.GoString, t1, t2]
  | true =>
    have t1 := HTTPProxy.toLinesNode_enabled lib h1 user p1 certFile keyFile he hu hp1 hc hk
    have t2 := HTTPProxy.toLinesNode_enabled lib h2 user p2 certFile keyFile
      (by rw [hdiff]; exact he) (by rw [hdiff]; exact hu) (by rw [hdiff])
      (by rw [hdiff]; exact hc) (by rw [hdiff]; exact hk)
    rw [e3, e4, e5, e6, e7] at t2
    have hiff : h1.toLinesNode lib = h2.toLinesNode lib ↔
        lib.ObfuscateKey p1 = lib.ObfuscateKey p2 := by
      rw [t1, t2]
      constructor
      · intro heq
        simp only [Option.some.injEq, Node.mk.injEq, List.cons.injEq, true_and, and_true]
          at heq
        exact String.append_left_cancel _ _ _ heq
      · intro heq
        rw [heq]
    refine ⟨hr2, by simp [HTTPProxy.GoString, t1], by simp [HTTPProxy.GoString, t2], ?_, ?_⟩
    · rw [hiff]
      constructor
      · intro heq; exact Or.inr heq
      · rintro (hf | heq)
        · rw [he] at hf; cases hf
        · exact heq
    · rintro (hf | heq)
      · rw [he] at hf; cases hf
      · simp only [HTTPProxy.GoString, hiff.2 heq]

set_option maxRecDepth 100000 in
/-- C16, amended, at the entity `exampleProxy` with the passwords `P` and `pw`, both
redacted to `[set]`: the same text for both. -/
theorem HTTPProxy.GoString_equal_of_redaction_witness :
    exampleRenderLib.ObfuscateKey "P" = "[set]" ∧ exampleRenderLib.ObfuscateKey "pw" = "[set]" ∧
    exampleProxy.GoString exampleRenderLib =
      ({ exampleProxy with Password := some "pw" } : HTTPProxy).GoString exampleRenderLib ∧
    exampleProxy.GoString exampleRenderLib =
      some ("HTTP proxy settings:\n├── Enabled: yes\n├── Listening address: :8888\n" ++
        "├── User: u\n├── Password: [set]\n├── CertFile: \n├── KeyFile: \n" ++
        "├── Stealth mode: no\n├── Log: no\n├── Read header timeout: 1s\n" ++
        "└── Read timeout: 3s") :=
  ⟨by decide, by decide,
    (HTTPProxy.GoString_equal_of_redaction exampleRenderLib exampleProxy
      { exampleProxy with Password := some "pw" } "P" "pw" exampleProxy_resolved rfl rfl
      (by decide) (by decide)).2.2.2.2 (Or.inr (by decide)),
    by decide⟩

/-- C17, the claim as stated fails: the entity `exampleProxy` without a user has
Enabled true, and `toLinesNode` fails on it (it reads through the nil pointer `User`)
instead of emitting the ten lines; it fails in the same way without a password,
without a cert file and without a key file. -/
theorem HTTPProxy.toLinesNode_enabled_nil_user_fails :
    ({ exampleProxy with User := none } : HTTPProxy).Enabled = some true ∧
    ({ exampleProxy with User := none } : HTTPProxy).toLinesNode exampleRenderLib = none ∧
    ({ exampleProxy with Password := none } : HTTPProxy).toLinesNode exampleRenderLib = none ∧
    ({ exampleProxy with CertFile := none } : HTTPProxy).toLinesNode exampleRenderLib = none ∧
    ({ exampleProxy with KeyFile := none } : HTTPProxy).toLinesNode exampleRenderLib = none := by
  exact ⟨rfl, rfl, rfl, rfl, rfl⟩

/-- C17, amended: for every entity whose Enabled flag is present and false,
`toLinesNode` emits the root line `HTTP proxy settings:` with exactly one child line,
the enabled line, whatever the other fields hold; when Enabled is true and the pointer
fields User, Password, CertFile and KeyFile are present, it emits that line followed
by the nine field lines in the order listening address, user, password, cert file, key
file, stealth, log, read header timeout, read timeout, whatever Stealth and Log
hold; when Enabled is true it emits lines only if these four fields are present. -/
theorem HTTPProxy.toLinesNode_lines (lib : RenderLib) (h : HTTPProxy) :
    (h.Enabled = some false →
      h.toLinesNode lib =
        some (.mk "HTTP proxy settings:"
          [.mk ("Enabled: " ++ lib.BoolToYesNo (some false)) []])) ∧
    (∀ (user password certFile keyFile : String),
      h.Enabled = some true → h.User = some user → h.Password = some password →
      h.CertFile = some certFile → h.KeyFile = some keyFile →
      ∃ node, h.toLinesNode lib = some node ∧ node.value = "HTTP proxy settings:" ∧
        node.lines =
          ["Enabled: " ++ lib.BoolToYesNo (some true),
            "Listening address: " ++ h.ListeningAddress,
            "User: " ++ user,
            "Password: " ++ lib.ObfuscateKey password,
            "CertFile: " ++ certFile,
            "KeyFile: " ++ keyFile,
            "Stealth mode: " ++ lib.BoolToYesNo h.Stealth,
            "Log: " ++ lib.BoolToYesNo h.Log,
            "Read header timeout: " ++ lib.DurationString h.ReadHeaderTimeout,
            "Read timeout: " ++ lib.DurationString h.ReadTimeout] ∧
        ∀ child ∈ node.children, child.children = []) ∧
    (h.Enabled = some true →
      ((h.toLinesNode lib).isSome = true ↔
        h.User.isSome = true ∧ h.Password.isSome = true ∧ h.CertFile.isSome = true ∧
          h.KeyFile.isSome = true)) := by
  refine ⟨HTTPProxy.toLinesNode_disabled lib h, ?_, ?_⟩
  · intro user password certFile keyFile he hu hp hc hk
    refine ⟨_, HTTPProxy.toLinesNode_enabled lib h user password certFile keyFile he hu hp hc hk,
      rfl, rfl, ?_⟩
    intro child hchild
    simp only [Node.children, List.mem_cons, List.mem_singleton, List.not_mem_nil,
      or_false] at hchild
    rcases hchild with h1 | h1 | h1 | h1 | h1 | h1 | h1 | h1 | h1 | h1 <;> rw [h1] <;> rfl
  · intro he
    cases hu : h.User <;> cases hp : h.Password <;> cases hc : h.CertFile <;>
      cases hk : h.KeyFile <;> simp [HTTPProxy.toLinesNode, he, hu, hp, hc, hk]

/-- C17, amended, at the entity `exampleProxy`: disabled and without user, one line;
enabled, ten lines in the fixed order; enabled with Stealth and Log absent, ten lines
again, the two flags rendered by the empty text. -/
theorem HTTPProxy.toLinesNode_lines_witness :
    (({ exampleProxy with Enabled := some false, User := none } : HTTPProxy).toLinesNode
        exampleRenderLib).map Node.lines = some ["Enabled: no"] ∧
    (exampleProxy.toLinesNode exampleRenderLib).map Node.lines =
      some ["Enabled: yes", "Listening address: :8888", "User: u", "Password: [set]",
        "CertFile: ", "KeyFile: ", "Stealth mode: no", "Log: no",
        "Read header timeout: 1s", "Read timeout: 3s"] ∧
    (({ exampleProxy with Stealth := none, Log := none } : HTTPProxy).toLinesNode
        exampleRenderLib).map Node.lines =
      some ["Enabled: yes", "Listening address: :8888", "User: u", "Password: [set]",
        "CertFile: ", "KeyFile: ", "Stealth mode: ", "Log: ",
        "Read header timeout: 1s", "Read timeout: 3s"] ∧
    (∃ node, ({ exampleProxy with Stealth := none, Log := none } : HTTPProxy).toLinesNode
        exampleRenderLib = some node ∧ node.value = "HTTP proxy settings:" ∧
      node.lines =
        ["Enabled: " ++ exampleRenderLib.BoolToYesNo (some true),
          "Listening address: " ++
            ({ exampleProxy with Stealth := none, Log := none } : HTTPProxy).ListeningAddress,
          "User: " ++ "u",
          "Password: " ++ exampleRenderLib.ObfuscateKey "P",
          "CertFile: " ++ "",
          "KeyFile: " ++ "",
          "Stealth mode: " ++ exampleRenderLib.BoolToYesNo
            ({ exampleProxy with Stealth := none, Log := none } : HTTPProxy).Stealth,
          "Log: " ++ exampleRenderLib.BoolToYesNo
            ({ exampleProxy with Stealth := none, Log := none } : HTTPProxy).Log,
          "Read header timeout: " ++ exampleRenderLib.DurationString
            ({ exampleProxy with Stealth := none, Log := none } : HTTPProxy).ReadHeaderTimeout,
          "Read timeout: " ++ exampleRenderLib.DurationString
            ({ exampleProxy with Stealth := none, Log := none } : HTTPProxy).ReadTimeout] ∧
      ∀ child ∈ node.children, child.children = []) :=
  ⟨by decide, by decide, by decide,
    (HTTPProxy.toLinesNode_lines exampleRenderLib
      { exampleProxy with Stealth := none, Log := none }).2.1 "u" "P" "" "" rfl rfl rfl rfl rfl⟩

/-- C18, the claim as stated fails: on the empty entity, whose Enabled field is
absent, `toLinesNode` and `String()` fail (the code reads `*h.Enabled` through a nil
pointer). -/
theorem HTTPProxy.rendering_fails_on_empty :
    HTTPProxy.empty.Enabled = none ∧
    HTTPProxy.empty.toLinesNode exampleRenderLib = none ∧
    HTTPProxy.empty.GoString exampleRenderLib = none := by
  exact ⟨rfl, rfl, rfl⟩

/-- C18, amended: rendering never fails on a Resolved entity, nor on an entity whose
Enabled flag is present and false: `toLinesNode` and `String()` return a result. -/
theorem HTTPProxy.rendering_total_on_resolved (lib : RenderLib) (h : HTTPProxy)
    (hr : h.Resolved ∨ h.Enabled = some false) :
    (h.toLinesNode lib).isSome = true ∧ (h.GoString lib).isSome = true := by
  have key : (h.toLinesNode lib).isSome = true := by
    rcases hr with hr | hf
    · obtain ⟨user, password, certFile, keyFile, enabled, stealth, log, hu, hp, hc, hk, he,
        _, _⟩ := hr.fields
      cases enabled with
      | false => rw [HTTPProxy.toLinesNode_disabled lib h he]; rfl
      | true =>
        rw [HTTPProxy.toLinesNode_enabled lib h user password certFile keyFile he hu hp hc hk]
        rfl
    · rw [HTTPProxy.toLinesNode_disabled lib h hf]; rfl
  refine ⟨key, ?_⟩
  simp only [HTTPProxy.GoString, Option.isSome_map']
  exact key

/-- C18, amended, at the Resolved entity `exampleProxy`. -/
theorem HTTPProxy.rendering_total_on_resolved_witness :
    (exampleProxy.toLinesNode exampleRenderLib).isSome = true ∧
    (exampleProxy.GoString exampleRenderLib).isSome = true :=
  HTTPProxy.rendering_total_on_resolved exampleRenderLib exampleProxy
    (Or.inl exampleProxy_resolved)

/-- C19: for every entity h, Partial or Resolved, `h.copy()` returns an entity equal
to h field by field (an absent pointer field stays absent, a present one points to an
equal value, the listening address and the timeouts are equal) and leaves h
unchanged. -/
theorem HTTPProxy.copy_equal (h : HTTPProxy) :
    h.copy.2 = h ∧ h.copy.1 = h ∧
    h.copy.2.User = h.User ∧ h.copy.2.Password = h.Password ∧
    h.copy.2.CertFile = h.CertFile ∧ h.copy.2.KeyFile = h.KeyFile ∧
    h.copy.2.ListeningAddress = h.ListeningAddress ∧ h.copy.2.Enabled = h.Enabled ∧
    h.copy.2.Stealth = h.Stealth ∧ h.copy.2.Log = h.Log ∧
    h.copy.2.ReadHeaderTimeout = h.ReadHeaderTimeout ∧
    h.copy.2.ReadTimeout = h.ReadTimeout := by
  have e : h.copy.2 = h := by
    simp only [HTTPProxy.copy, CopyPointer_eq]
  refine ⟨e, rfl, ?_, ?_, ?_, ?_, ?_, ?_, ?_, ?_, ?_, ?_⟩ <;> rw [e]

/-- C20: merge and override are duals: `A.overrideWith(B)` is the entity
`B.mergeWith(A)`, field by field; and merging or overriding with the empty entity
leaves the receiver unchanged. -/
theorem HTTPProxy.overrideWith_eq_mergeWith_swapped (A B : HTTPProxy) :
    A.overrideWith B = B.mergeWith A ∧
    A.mergeWith HTTPProxy.empty = A ∧
    A.overrideWith HTTPProxy.empty = A := by
  refine ⟨?_, ?_, ?_⟩
  · simp only [HTTPProxy.overrideWith, HTTPProxy.mergeWith, OverrideWithPointer_eq_merge,
      OverrideWithString_eq_merge, OverrideWithNumber_eq_merge]
  · have hp : ∀ {T : Type} (a : Option T), MergeWithPointer a none = a := by
      intro T a
      cases a <;> rfl
    cases A
    simp only [HTTPProxy.mergeWith, HTTPProxy.empty, hp, MergeWithString, MergeWithNumber,
      HTTPProxy.mk.injEq, true_and, ite_eq_left_iff, not_not]
    exact ⟨fun h => h.symm, fun h => h.symm, fun h => h.symm⟩
  · cases A
    simp [HTTPProxy.overrideWith, HTTPProxy.empty, OverrideWithPointer, OverrideWithString,
      OverrideWithNumber]

/-! ## The environment source: IDs -/

theorem Source.getEnvWithRetro_current {Prefix : Type} (s : Source Prefix)
    (key retroKey v : String) (h : s.Get key = some v) :
    s.getEnvWithRetro key [retroKey] = (key, some v) := by
  simp [Source.getEnvWithRetro, h]

theorem Source.getEnvWithRetro_retro {Prefix : Type} (s : Source Prefix)
    (key retroKey v : String) (h : s.Get key = none) (hr : s.Get retroKey = some v) :
    s.getEnvWithRetro key [retroKey] = (retroKey, some v) := by
  simp [Source.getEnvWithRetro, h, hr]

theorem Source.getEnvWithRetro_unset {Prefix : Type} (s : Source Prefix)
    (key retroKey : String) (h : s.Get key = none) (hr : s.Get retroKey = none) :
    s.getEnvWithRetro key [retroKey] = (key, none) := by
  simp [Source.getEnvWithRetro, h, hr]

/-- The key that the lookup returns with a value is the canonical key when it is set,
else the retro key, and the value is the value of that key. -/
theorem Source.getEnvWithRetro_some {Prefix : Type} (s : Source Prefix)
    (key retroKey k v : String) (h : s.getEnvWithRetro key [retroKey] = (k, some v)) :
    s.Get k = some v ∧
      ((k = key ∧ s.Get key = some v) ∨ (k = retroKey ∧ s.Get key = none)) := by
  cases hk : s.Get key with
  | some w =>
    rw [s.getEnvWithRetro_current key retroKey w hk] at h
    injection h with h1 h2
    subst h1
    rw [← h2]
    exact ⟨hk, Or.inl ⟨rfl, rfl⟩⟩
  | none =>
    cases hr : s.Get retroKey with
    | some w =>
      rw [s.getEnvWithRetro_retro key retroKey w hk hr] at h
      injection h with h1 h2
      subst h1
      rw [← h2]
      exact ⟨hr, Or.inr ⟨rfl, rfl⟩⟩
    | none =>
      rw [s.getEnvWithRetro_unset key retroKey hk hr] at h
      injection h with h1 h2
      cases h2

theorem decimalUnsigned_eq_some (v : String) (n : Nat) :
    decimalUnsigned v = some n ↔
      (v.data ≠ [] ∧ v.data.all isDecDigit = true) ∧ digitsAcc 0 v.data = n := by
  unfold decimalUnsigned readDecimal
  by_cases h : v.data ≠ [] ∧ v.data.all isDecDigit = true
  · rw [if_pos h]
    simp [h]
  · rw [if_neg h]
    constructor
    · intro hh; cases hh
    · rintro ⟨hh, _⟩; exact absurd hh h

/-- The three outcomes of `ParseUint` with bit size 64 against the unsigned literals. -/
theorem ParseUint64_cases (arch : Arch) (v : String) :
    (∃ n, decimalUnsigned v = some n ∧ n ≤ 18446744073709551615 ∧
      ParseUint arch v 64 = (n, none)) ∨
    ((¬ ∃ n, decimalUnsigned v = some n ∧ n ≤ 18446744073709551615) ∧
      (ParseUint arch v 64 = (0, some (syntaxError "ParseUint" v)) ∨
        ParseUint arch v 64 = (18446744073709551615, some (rangeError "ParseUint" v)))) := by
  have key := ParseUint_spec arch v 64 64 (Or.inr rfl) (by simp)
  have e64 : 2 ^ 64 - 1 = 18446744073709551615 := by decide
  rw [e64] at key
  by_cases hg : v.data ≠ [] ∧ v.data.all isDecDigit = true ∧
      digitsAcc 0 v.data ≤ 18446744073709551615
  · left
    exact ⟨digitsAcc 0 v.data, (decimalUnsigned_eq_some v _).2 ⟨⟨hg.1, hg.2.1⟩, rfl⟩, hg.2.2,
      key.1 hg⟩
  · right
    refine ⟨?_, key.2 hg⟩
    rintro ⟨n, hn, hle⟩
    obtain ⟨⟨h1, h2⟩, h3⟩ := (decimalUnsigned_eq_some v n).1 hn
    exact hg ⟨h1, h2, by omega⟩

theorem idMessage_assoc (k x : String) :
    "environment variable " ++ k ++ ": " ++ "system ID is not valid" ++ ": " ++ x =
      "environment variable " ++ k ++ ": system ID is not valid: " ++ x := by
  have e : ": " ++ "system ID is not valid" ++ ": " = ": system ID is not valid: " := by decide
  rw [← e]
  simp only [String.append_assoc]

theorem Source.readID_unset {Prefix : Type} (s : Source Prefix) (key retroKey : String)
    (h : (s.getEnvWithRetro key [retroKey]).2 = none) :
    s.readID key retroKey = (none, none) := by
  simp [Source.readID, h]

theorem Source.readID_ok {Prefix : Type} (s : Source Prefix) (key retroKey k v : String)
    (n : Nat) (h : s.getEnvWithRetro key [retroKey] = (k, some v))
    (hp : ParseUint s.arch v 64 = (n, none)) (hn : n ≤ 4294967295) :
    s.readID key retroKey = (some n, none) := by
  have hnot : ¬ (n > 4294967295) := by omega
  have hu : uint32 n = n := by unfold uint32; omega
  simp [Source.readID, h, hp, hnot, hu]

theorem Source.readID_overflow {Prefix : Type} (s : Source Prefix)
    (key retroKey k v : String) (n : Nat) (h : s.getEnvWithRetro key [retroKey] = (k, some v))
    (hp : ParseUint s.arch v 64 = (n, none)) (hn : 4294967295 < n) :
    s.readID key retroKey =
      (none, some (.wrapError
        ("environment variable " ++ k ++ ": system ID is not valid: " ++ toString n ++
          ": must be between 0 and 4294967295")
        (.errorString .ErrSystemIDNotValid))) := by
  have hgt : n > 4294967295 := hn
  have e : toString 4294967295 = "4294967295" := by decide
  have m := idMessage_assoc k (toString n ++ ": must be between 0 and " ++ toString 4294967295)
  simp only [Source.readID, h, hp, hgt, if_true, Sentinel.Error]
  simp only [← String.append_assoc] at m
  have e2 : ": must be between 0 and " ++ "4294967295" =
      ": must be between 0 and 4294967295" := by decide
  rw [m, e]
  simp only [String.append_assoc, e2]

theorem Source.readID_parse_failure {Prefix : Type} (s : Source Prefix)
    (key retroKey k v : String) (n : Nat) (err : NumError)
    (h : s.getEnvWithRetro key [retroKey] = (k, some v))
    (hp : ParseUint s.arch v 64 = (n, some err)) :
    s.readID key retroKey =
      (none, some (.wrapError
        ("environment variable " ++ k ++ ": system ID is not valid: " ++ err.Error s.Quote)
        (.errorString .ErrSystemIDNotValid))) := by
  simp only [Source.readID, h, hp, Sentinel.Error]
  rw [idMessage_assoc]

/-- A value that is an unsigned literal of at most 4294967295 is read as its value. -/
theorem Source.readID_of_valid {Prefix : Type} (s : Source Prefix)
    (key retroKey k v : String) (n : Nat)
    (hlook : s.getEnvWithRetro key [retroKey] = (k, some v))
    (hn : decimalUnsigned v = some n) (hle : n ≤ 4294967295) :
    s.readID key retroKey = (some n, none) := by
  rcases ParseUint64_cases s.arch v with ⟨m, hm, _, hp⟩ | ⟨hno, _⟩
  · rw [hn] at hm
    injection hm with hm
    subst hm
    exact s.readID_ok key retroKey k v n hlook hp hle
  · exact absurd ⟨n, hn, by omega⟩ hno

/-- C11: for every set value v of the ID variable, `readID` succeeds if and only if v
is a base-10 unsigned integer literal with value at most 4294967295, and on success
the returned ID is present and equal to the value of v. -/
theorem Source.readID_succeeds_iff {Prefix : Type} (s : Source Prefix)
    (key retroKey k v : String) (hlook : s.getEnvWithRetro key [retroKey] = (k, some v)) :
    ((s.readID key retroKey).2 = none ↔
      ∃ n, decimalUnsigned v = some n ∧ n ≤ 4294967295) ∧
    (∀ n, decimalUnsigned v = some n → n ≤ 4294967295 →
      s.readID key retroKey = (some n, none)) := by
  have hok : ∀ n, decimalUnsigned v = some n → n ≤ 4294967295 →
      s.readID key retroKey = (some n, none) :=
    fun n hn hle => s.readID_of_valid key retroKey k v n hlook hn hle
  refine ⟨⟨?_, ?_⟩, hok⟩
  · intro hnone
    rcases ParseUint64_cases s.arch v with ⟨m, hm, _, hp⟩ | ⟨_, hp | hp⟩
    · by_cases hle : m ≤ 4294967295
      · exact ⟨m, hm, hle⟩
      · rw [s.readID_overflow key retroKey k v m hlook hp (by omega)] at hnone
        cases hnone
    · rw [s.readID_parse_failure key retroKey k v _ _ hlook hp] at hnone
      cases hnone
    · rw [s.readID_parse_failure key retroKey k v _ _ hlook hp] at hnone
      cases hnone
  · rintro ⟨n, hn, hle⟩
    rw [hok n hn hle]

/-- C11 at `PUID=1000`, which resolves to the ID 1000, and at `PUID=-1`, which
fails. -/
theorem Source.readID_succeeds_iff_witness :
    (exampleSource [("PUID", "1000")]).readID "PUID" "UID" = (some 1000, none) ∧
    ((exampleSource [("PUID", "-1")]).readID "PUID" "UID").1 = none ∧
    ((exampleSource [("PUID", "-1")]).readID "PUID" "UID").2 ≠ none ∧
    (((exampleSource [("PUID", "1000")]).readID "PUID" "UID").2 = none ↔
      ∃ n, decimalUnsigned "1000" = some n ∧ n ≤ 4294967295) :=
  ⟨by decide, by decide, by decide,
    (Source.readID_succeeds_iff (exampleSource [("PUID", "1000")]) "PUID" "UID" "PUID" "1000"
      (by decide)).1⟩

theorem String.getLast?_append_literal (a b : String) (c : Char)
    (h : b.data.getLast? = some c) : (a ++ b).data.getLast? = some c := by
  rw [String.data_append, List.getLast?_append, h]
  rfl

/-- The text of a syntax or range error of strconv ends with `x` or `e`. -/
theorem NumError.Error_getLast? (Quote : String → String) (err : NumError)
    (h : err.Err = .ErrSyntax ∨ err.Err = .ErrRange) :
    (err.Error Quote).data.getLast? = some 'x' ∨ (err.Error Quote).data.getLast? = some 'e' := by
  unfold NumError.Error
  rcases h with h | h
  · left
    rw [h]
    exact String.getLast?_append_literal _ _ 'x' (by decide)
  · right
    rw [h]
    exact String.getLast?_append_literal _ _ 'e' (by decide)

set_option maxRecDepth 100000 in
/-- C12, the claim as stated fails: the value `99999999999999999999` is a string of
decimal digits above 4294967295, and `readID` fails on it with the parse-failure
error, whose message does not name the bound 4294967295. -/
theorem Source.readID_huge_value_is_parse_failure :
    decimalUnsigned "99999999999999999999" = some 99999999999999999999 ∧
    4294967295 < 99999999999999999999 ∧
    (exampleSource [("PUID", "99999999999999999999")]).readID "PUID" "UID" =
      (none, some (.wrapError
        ("environment variable PUID: system ID is not valid: " ++
          "strconv.ParseUint: parsing \"99999999999999999999\": value out of range")
        (.errorString .ErrSystemIDNotValid))) ∧
    ¬ ("4294967295".data <:+:
      ("environment variable PUID: system ID is not valid: " ++
        "strconv.ParseUint: parsing \"99999999999999999999\": value out of range").data) := by
  refine ⟨by decide, by decide, by decide, by decide⟩

/-- C12, amended: for every ID value that is a string of decimal digits whose value
exceeds 4294967295 and is at most 18446744073709551615, the maximum unsigned 64-bit
value, `readID` fails with the range-overflow error: `ParseUint` itself succeeds, and
the message names the source variable and the bound 4294967295 and differs from every
parse-failure message. -/
theorem Source.readID_overflow_error {Prefix : Type} (s : Source Prefix)
    (key retroKey k v : String) (n : Nat)
    (hlook : s.getEnvWithRetro key [retroKey] = (k, some v))
    (hv : decimalUnsigned v = some n) (hgt : 4294967295 < n)
    (hle : n ≤ 18446744073709551615) :
    (ParseUint s.arch v 64).2 = none ∧
    ∃ e, s.readID key retroKey = (none, some e) ∧
      e.Is .ErrSystemIDNotValid = true ∧
      e.Error s.Quote =
        "environment variable " ++ k ++ ": system ID is not valid: " ++ toString n ++
          ": must be between 0 and 4294967295" ∧
      k.data <:+: (e.Error s.Quote).data ∧
      "4294967295".data <:+: (e.Error s.Quote).data ∧
      ∀ err : NumError, err.Err = .ErrSyntax ∨ err.Err = .ErrRange →
        e.Error s.Quote ≠
          "environment variable " ++ k ++ ": system ID is not valid: " ++ err.Error s.Quote := by
  rcases ParseUint64_cases s.arch v with ⟨m, hm, _, hp⟩ | ⟨hno, _⟩
  · rw [hv] at hm
    injection hm with hm
    subst hm
    refine ⟨by rw [hp], _, s.readID_overflow key retroKey k v n hlook hp hgt, rfl, rfl, ?_, ?_, ?_⟩
    · simp only [GoError.Error, String.data_append, List.append_assoc]
      exact ⟨"environment variable ".data, _, rfl⟩
    · have hin : "4294967295".data <:+: ": must be between 0 and 4294967295".data := by
        decide
      simp only [GoError.Error, String.data_append]
      exact hin.trans (List.suffix_append _ _).isInfix
    · intro err herr heq
      have h1 : (GoError.Error s.Quote (.wrapError
          ("environment variable " ++ k ++ ": system ID is not valid: " ++ toString n ++
            ": must be between 0 and 4294967295")
          (.errorString .ErrSystemIDNotValid))).data.getLast? = some '5' :=
        String.getLast?_append_literal _ _ '5' (by decide)
      rw [heq] at h1
      have h2 : ("environment variable " ++ k ++ ": system ID is not valid: " ++
          err.Error s.Quote).data.getLast? = (err.Error s.Quote).data.getLast? := by
        rcases NumError.Error_getLast? s.Quote err herr with h3 | h3
        · rw [h3]; exact String.getLast?_append_literal _ _ 'x' h3
        · rw [h3]; exact String.getLast?_append_literal _ _ 'e' h3
      rw [h2] at h1
      rcases NumError.Error_getLast? s.Quote err herr with h3 | h3 <;>
        rw [h3] at h1 <;> injection h1 with h1 <;> exact absurd h1 (by decide)
  · exact absurd ⟨n, hv, hle⟩ hno

/-- C12, amended, at `PUID=99999999999`: the range-overflow error, naming `PUID` and
the bound 4294967295. -/
theorem Source.readID_overflow_error_witness :
    (exampleSource [("PUID", "99999999999")]).readID "PUID" "UID" =
      (none, some (.wrapError
        "environment variable PUID: system ID is not valid: 99999999999: must be between 0 and 4294967295"
        (.errorString .ErrSystemIDNotValid))) ∧
    (ParseUint (exampleSource [("PUID", "99999999999")]).arch "99999999999" 64).2 = none ∧
    ∃ e, (exampleSource [("PUID", "99999999999")]).readID "PUID" "UID" = (none, some e) ∧
      e.Is .ErrSystemIDNotValid = true ∧
      e.Error (exampleSource [("PUID", "99999999999")]).Quote =
        "environment variable " ++ "PUID" ++ ": system ID is not valid: " ++
          toString 99999999999 ++ ": must be between 0 and 4294967295" ∧
      "PUID".data <:+: (e.Error (exampleSource [("PUID", "99999999999")]).Quote).data ∧
      "4294967295".data <:+: (e.Error (exampleSource [("PUID", "99999999999")]).Quote).data ∧
      ∀ err : NumError, err.Err = .ErrSyntax ∨ err.Err = .ErrRange →
        e.Error (exampleSource [("PUID", "99999999999")]).Quote ≠
          "environment variable " ++ "PUID" ++ ": system ID is not valid: " ++
            err.Error (exampleSource [("PUID", "99999999999")]).Quote :=
  ⟨by decide,
    Source.readID_overflow_error (exampleSource [("PUID", "99999999999")]) "PUID" "UID" "PUID"
      "99999999999" 99999999999 (by decide) (by decide) (by decide) (by decide)⟩

/-- C13: when the lookup returns no value, as it does when neither the canonical key
nor the retro key is set, `readID` returns an absent ID and no error; and `readID`
returns an error only when the canonical or the retro variable is set to a value that
is not an unsigned literal of at most 4294967295. -/
theorem Source.readID_unset_is_absent {Prefix : Type} (s : Source Prefix)
    (key retroKey : String) :
    ((s.getEnvWithRetro key [retroKey]).2 = none → s.readID key retroKey = (none, none)) ∧
    (s.Get key = none → s.Get retroKey = none → s.readID key retroKey = (none, none)) ∧
    (∀ e, (s.readID key retroKey).2 = some e →
      ∃ k v, (k = key ∨ k = retroKey) ∧ s.Get k = some v ∧
        ¬ ∃ n, decimalUnsigned v = some n ∧ n ≤ 4294967295) := by
  refine ⟨s.readID_unset key retroKey, ?_, ?_⟩
  · intro h hr
    exact s.readID_unset key retroKey (by rw [s.getEnvWithRetro_unset key retroKey h hr])
  · intro e he
    cases hl : s.getEnvWithRetro key [retroKey] with
    | mk k val =>
      cases val with
      | none =>
        rw [s.readID_unset key retroKey (by rw [hl])] at he
        cases he
      | some v =>
        obtain ⟨hget, hk⟩ := s.getEnvWithRetro_some key retroKey k v hl
        refine ⟨k, v, ?_, hget, ?_⟩
        · rcases hk with ⟨h1, _⟩ | ⟨h1, _⟩
          · exact Or.inl h1
          · exact Or.inr h1
        · rintro ⟨n, hn, hle⟩
          rw [s.readID_of_valid key retroKey k v n hl hn hle] at he
          cases he

/-! ## The environment source: the firewall and its retro key -/

theorem not_isPrefix_of_take (p1 p2 x : List Char) (n : Nat) (h1 : n ≤ p1.length)
    (h2 : n ≤ p2.length) (hne : p2.take n ≠ p1.take n) : ¬ (p2 <+: p1 ++ x) := by
  rintro ⟨t, ht⟩
  have := congrArg (List.take n) ht
  rw [List.take_append_of_le_length h2, List.take_append_of_le_length h1] at this
  exact hne this

theorem Source.readID_error_names_key {Prefix : Type} (s : Source Prefix)
    (key retroKey : String) (e : GoError) (he : (s.readID key retroKey).2 = some e) :
    ∃ k val, s.getEnvWithRetro key [retroKey] = (k, some val) ∧
      ∃ rest, e.Error s.Quote = "environment variable " ++ k ++ ": " ++ rest := by
  have lit : ": system ID is not valid: " = ": " ++ "system ID is not valid: " := by decide
  cases hl : s.getEnvWithRetro key [retroKey] with
  | mk k val =>
    cases val with
    | none =>
      rw [s.readID_unset key retroKey (by rw [hl])] at he
      cases he
    | some v =>
      refine ⟨k, v, rfl, ?_⟩
      rcases ParseUint64_cases s.arch v with ⟨m, _, _, hp⟩ | ⟨_, hp | hp⟩
      · by_cases hle : m ≤ 4294967295
        · rw [s.readID_ok key retroKey k v m hl hp hle] at he
          cases he
        · rw [s.readID_overflow key retroKey k v m hl hp (by omega)] at he
          injection he with he
          subst he
          exact ⟨"system ID is not valid: " ++ toString m ++
            ": must be between 0 and 4294967295", by
              simp only [GoError.Error, lit, String.append_assoc]⟩
      · rw [s.readID_parse_failure key retroKey k v _ _ hl hp] at he
        injection he with he
        subst he
        exact ⟨"system ID is not valid: " ++ (syntaxError "ParseUint" v).Error s.Quote, by
          simp only [GoError.Error, lit, String.append_assoc]⟩
      · rw [s.readID_parse_failure key retroKey k v _ _ hl hp] at he
        injection he with he
        subst he
        exact ⟨"system ID is not valid: " ++ (rangeError "ParseUint" v).Error s.Quote, by
          simp only [GoError.Error, lit, String.append_assoc]⟩

theorem Source.readFirewall_subnets {Prefix : Type} (s : Source Prefix)
    (h1 : (stringsToPorts s.arch s.Quote (s.CSV "FIREWALL_VPN_INPUT_PORTS")).2 = none)
    (h2 : (stringsToPorts s.arch s.Quote (s.CSV "FIREWALL_INPUT_PORTS")).2 = none) :
    s.readFirewall.1.OutboundSubnets =
      (stringsToNetipPrefixes s.zeroPrefix s.ParsePrefix s.Quote
        (s.CSV (s.getEnvWithRetro "FIREWALL_OUTBOUND_SUBNETS" ["EXTRA_SUBNETS"]).1)).1 ∧
    ∀ e, (stringsToNetipPrefixes s.zeroPrefix s.ParsePrefix s.Quote
        (s.CSV (s.getEnvWithRetro "FIREWALL_OUTBOUND_SUBNETS" ["EXTRA_SUBNETS"]).1)).2 = some e →
      s.readFirewall.2 = some (.wrapError
        ("environment variable " ++
          (s.getEnvWithRetro "FIREWALL_OUTBOUND_SUBNETS" ["EXTRA_SUBNETS"]).1 ++ ": " ++
          e.Error s.Quote) e) := by
  constructor
  · simp only [Source.readFirewall, h1, h2]
    split <;> [rfl; skip]
    split <;> [rfl; skip]
    split <;> rfl
  · intro e he
    simp only [Source.readFirewall, h1, h2, he]

theorem Source.readFirewall_ok_ports {Prefix : Type} (s : Source Prefix)
    (h : s.readFirewall.2 = none) :
    (stringsToPorts s.arch s.Quote (s.CSV "FIREWALL_VPN_INPUT_PORTS")).2 = none ∧
    (stringsToPorts s.arch s.Quote (s.CSV "FIREWALL_INPUT_PORTS")).2 = none ∧
    (stringsToNetipPrefixes s.zeroPrefix s.ParsePrefix s.Quote
      (s.CSV (s.getEnvWithRetro "FIREWALL_OUTBOUND_SUBNETS" ["EXTRA_SUBNETS"]).1)).2 = none := by
  cases h1 : (stringsToPorts s.arch s.Quote (s.CSV "FIREWALL_VPN_INPUT_PORTS")).2 with
  | some err => simp [Source.readFirewall, h1] at h
  | none =>
    cases h2 : (stringsToPorts s.arch s.Quote (s.CSV "FIREWALL_INPUT_PORTS")).2 with
    | some err => simp [Source.readFirewall, h1, h2] at h
    | none =>
      cases h3 : (stringsToNetipPrefixes s.zeroPrefix s.ParsePrefix s.Quote
          (s.CSV (s.getEnvWithRetro "FIREWALL_OUTBOUND_SUBNETS" ["EXTRA_SUBNETS"]).1)).2 with
      | some err => simp [Source.readFirewall, h1, h2, h3] at h
      | none => exact ⟨rfl, rfl, rfl⟩

/-- On success the prefixes are the parses of the entries, in order. -/
theorem stringsToNetipPrefixes_ok_value {Prefix : Type} (zero : Prefix)
    (ParsePrefix : String → Prefix × Option GoError) (Quote : String → String)
    (ss : List String) (h : (stringsToNetipPrefixes zero ParsePrefix Quote ss).2 = none) :
    (stringsToNetipPrefixes zero ParsePrefix Quote ss).1 =
      ss.map (fun s => (ParsePrefix s).1) := by
  rcases firstFailure_cases ParsePrefix ss with hall | ⟨pre, s, post, err, hss, hpre, hs⟩
  · rw [stringsToNetipPrefixes_all_ok zero ParsePrefix Quote ss hall]
  · rw [hss, stringsToNetipPrefixes_first_failure zero ParsePrefix Quote pre s post err hpre
      hs] at h
    cases h

/-- C14: retro-key resolution: if `FIREWALL_OUTBOUND_SUBNETS` is unset and
`EXTRA_SUBNETS` is set to v, the key used is `EXTRA_SUBNETS`; when `readFirewall`
succeeds, and already when the two port lists parse, `OutboundSubnets` is the parse
of the comma-separated entries of v; an error of the subnet step names
`EXTRA_SUBNETS` in its `environment variable` prefix and not
`FIREWALL_OUTBOUND_SUBNETS`; and every error of `readID` names in that prefix the key
whose value was read, the canonical key if it is set and the retro key otherwise. -/
theorem Source.readFirewall_retro_key {Prefix : Type} (s : Source Prefix) (v : String)
    (hcanon : s.Get "FIREWALL_OUTBOUND_SUBNETS" = none)
    (hretro : s.Get "EXTRA_SUBNETS" = some v) :
    s.getEnvWithRetro "FIREWALL_OUTBOUND_SUBNETS" ["EXTRA_SUBNETS"] =
      ("EXTRA_SUBNETS", some v) ∧
    (s.readFirewall.2 = none →
      s.readFirewall.1.OutboundSubnets =
        ((v.data.splitOn ',').map String.mk).map (fun t => (s.ParsePrefix t).1)) ∧
    ((stringsToPorts s.arch s.Quote (s.CSV "FIREWALL_VPN_INPUT_PORTS")).2 = none →
      (stringsToPorts s.arch s.Quote (s.CSV "FIREWALL_INPUT_PORTS")).2 = none →
      s.readFirewall.1.OutboundSubnets =
        (stringsToNetipPrefixes s.zeroPrefix s.ParsePrefix s.Quote
          ((v.data.splitOn ',').map String.mk)).1 ∧
      ∀ e, (stringsToNetipPrefixes s.zeroPrefix s.ParsePrefix s.Quote
          ((v.data.splitOn ',').map String.mk)).2 = some e →
        ∃ e2, s.readFirewall.2 = some e2 ∧
          e2.Error s.Quote = "environment variable EXTRA_SUBNETS: " ++ e.Error s.Quote ∧
          "environment variable EXTRA_SUBNETS: ".data <+: (e2.Error s.Quote).data ∧
          ¬ ("environment variable FIREWALL_OUTBOUND_SUBNETS: ".data <+:
            (e2.Error s.Quote).data)) ∧
    (∀ key retroKey e, (s.readID key retroKey).2 = some e →
      ∃ k val, s.Get k = some val ∧
        ((k = key ∧ s.Get key = some val) ∨ (k = retroKey ∧ s.Get key = none)) ∧
        ("environment variable " ++ k ++ ": ").data <+: (e.Error s.Quote).data) := by
  have hkey := s.getEnvWithRetro_retro "FIREWALL_OUTBOUND_SUBNETS" "EXTRA_SUBNETS" v hcanon hretro
  have hcsv : s.CSV "EXTRA_SUBNETS" = (v.data.splitOn ',').map String.mk := by
    simp only [Source.CSV, hretro]
  have hsub : ∀ (h1 : (stringsToPorts s.arch s.Quote (s.CSV "FIREWALL_VPN_INPUT_PORTS")).2 = none)
      (h2 : (stringsToPorts s.arch s.Quote (s.CSV "FIREWALL_INPUT_PORTS")).2 = none),
      s.readFirewall.1.OutboundSubnets =
        (stringsToNetipPrefixes s.zeroPrefix s.ParsePrefix s.Quote
          ((v.data.splitOn ',').map String.mk)).1 ∧
      ∀ e, (stringsToNetipPrefixes s.zeroPrefix s.ParsePrefix s.Quote
          ((v.data.splitOn ',').map String.mk)).2 = some e →
        s.readFirewall.2 = some (.wrapError
          ("environment variable " ++ "EXTRA_SUBNETS" ++ ": " ++ e.Error s.Quote) e) := by
    intro h1 h2
    have := s.readFirewall_subnets h1 h2
    rw [hkey] at this
    simp only [hcsv] at this
    exact this
  refine ⟨hkey, ?_, ?_, ?_⟩
  · intro hok
    obtain ⟨h1, h2, h3⟩ := s.readFirewall_ok_ports hok
    rw [hkey] at h3
    simp only [hcsv] at h3
    rw [(hsub h1 h2).1]
    exact stringsToNetipPrefixes_ok_value s.zeroPrefix s.ParsePrefix s.Quote _ h3
  · intro h1 h2
    refine ⟨(hsub h1 h2).1, ?_⟩
    intro e he
    have lit : "environment variable " ++ "EXTRA_SUBNETS" ++ ": " =
        "environment variable EXTRA_SUBNETS: " := by decide
    have hmsg : (GoError.wrapError
        ("environment variable " ++ "EXTRA_SUBNETS" ++ ": " ++ e.Error s.Quote) e).Error s.Quote =
        "environment variable EXTRA_SUBNETS: " ++ e.Error s.Quote := by
      simp only [GoError.Error, lit]
    refine ⟨_, (hsub h1 h2).2 e he, hmsg, ?_, ?_⟩
    · rw [hmsg, String.data_append]
      exact List.prefix_append _ _
    · rw [hmsg, String.data_append]
      exact not_isPrefix_of_take _ _ _ 22 (by decide) (by decide) (by decide)
  · intro key retroKey e he
    obtain ⟨k, val, hl, rest, hrest⟩ := s.readID_error_names_key key retroKey e he
    obtain ⟨hget, hk⟩ := s.getEnvWithRetro_some key retroKey k val hl
    refine ⟨k, val, hget, hk, ?_⟩
    rw [hrest, String.data_append]
    exact List.prefix_append _ _

/-- C14 at `EXTRA_SUBNETS=10.0.0.0/8`, which resolves to the list of the one prefix
`10.0.0.0/8`, at `EXTRA_SUBNETS=10.0.0.0/8,not-an-ip`, whose error names
`EXTRA_SUBNETS`, and at `UID=abc`, whose `readID` error names `UID`. -/
theorem Source.readFirewall_retro_key_witness :
    (exampleSource [("EXTRA_SUBNETS", "10.0.0.0/8")]).readFirewall =
      ({ VPNInputPorts := [], InputPorts := [],
         OutboundSubnets := [{ octets := [10, 0, 0, 0], bits := 8 }],
         Enabled := none, Debug := none }, none) ∧
    ((exampleSource [("EXTRA_SUBNETS", "10.0.0.0/8,not-an-ip")]).readFirewall.2.map
        (GoError.Error quotePlain)) =
      some ("environment variable EXTRA_SUBNETS: parsing IP network \"not-an-ip\": " ++
        "netip.ParsePrefix(\"not-an-ip\"): not an IPv4 prefix") ∧
    ((exampleSource [("UID", "abc")]).readID "PUID" "UID").2.map (GoError.Error quotePlain) =
      some ("environment variable UID: system ID is not valid: " ++
        "strconv.ParseUint: parsing \"abc\": invalid syntax") ∧
    (exampleSource [("EXTRA_SUBNETS", "10.0.0.0/8")]).getEnvWithRetro
        "FIREWALL_OUTBOUND_SUBNETS" ["EXTRA_SUBNETS"] = ("EXTRA_SUBNETS", some "10.0.0.0/8") :=
  ⟨by rfl, by decide, by decide,
    (Source.readFirewall_retro_key (exampleSource [("EXTRA_SUBNETS", "10.0.0.0/8")])
      "10.0.0.0/8" (by decide) (by decide)).1⟩

end Gluetun
